import Mathlib

/-!
Verification model of the `node-meshes-events-client` library.

The definitions below are a shallow embedding of `src/client.js`,
`src/lib/errors.js` and `src/lib/helpers.js`: JavaScript runtime values
are modelled by the inductive `JSValue`, JavaScript objects by ordered
association lists with last-write-wins insertion (`insertKV`), thrown or
rejected values by the error component of `Except JSValue`, and the
`fetch` transport by an arbitrary `FetchOutcome` value.  Host helpers the
library delegates to (`JSON.parse`, `JSON.stringify`, `URLSearchParams`)
are supplied through a `JsEnv` record of total functions.
-/

namespace Meshes

/-- Model of a JavaScript runtime value.  `errv name message data` models an
`Error` object with the given `name` discriminator (a `MeshesApiError` has
name `"MeshesApiError"`; raw lower-level errors carry other names or are
arbitrary values). -/
inductive JSValue where
  | str : String → JSValue
  | num : ℚ → JSValue
  | bool : Bool → JSValue
  | null : JSValue
  | undefinedV : JSValue
  | obj : List (String × JSValue) → JSValue
  | arr : List JSValue → JSValue
  | fn : JSValue
  | errv : String → String → Option JSValue → JSValue

/-- JavaScript `typeof` operator on the modelled values. -/
def typeofJS : JSValue → String
  | .str _ => "string"
  | .num _ => "number"
  | .bool _ => "boolean"
  | .null => "object"
  | .undefinedV => "undefined"
  | .obj _ => "object"
  | .arr _ => "object"
  | .fn => "function"
  | .errv _ _ _ => "object"

/-- JavaScript truthiness of the modelled values. -/
def truthy : JSValue → Bool
  | .str s => !s.isEmpty
  | .num q => decide (q ≠ 0)
  | .bool b => b
  | .null => false
  | .undefinedV => false
  | .obj _ => true
  | .arr _ => true
  | .fn => true
  | .errv _ _ _ => true

/-- `Array.isArray`. -/
def isArrayJS : JSValue → Bool
  | .arr _ => true
  | _ => false

/-- First-match lookup in an association list (model objects keep their keys
distinct, so this agrees with JavaScript property lookup). -/
def lookupKV {α : Type} (k : String) : List (String × α) → Option α
  | [] => none
  | (k1, v) :: rest => if k1 = k then some v else lookupKV k rest

/-- Property read `v[k]`; absent properties read as `undefined`. -/
def getProp (v : JSValue) (k : String) : JSValue :=
  match v with
  | .obj fs => (lookupKV k fs).getD .undefinedV
  | _ => .undefinedV

/-- Property write `o[k] = v` on an association list: replaces the value in
place if the key is present (JavaScript keeps the original slot), otherwise
appends a new entry. -/
def insertKV {α : Type} : List (String × α) → String → α → List (String × α)
  | [], k, v => [(k, v)]
  | (k1, v1) :: rest, k, v =>
      if k1 = k then (k1, v) :: rest else (k1, v1) :: insertKV rest k v

/-- Spreading `upd` over `base`: each entry of `upd` is written in order. -/
def insertAll {α : Type} (base upd : List (String × α)) : List (String × α) :=
  upd.foldl (fun acc p => insertKV acc p.1 p.2) base

/-- Own enumerable entries produced by spreading / `Object.entries`:
objects yield their fields, arrays and strings yield index-keyed entries,
everything else yields nothing. -/
def spreadFields : JSValue → List (String × JSValue)
  | .obj fs => fs
  | .arr xs => xs.enum.map (fun p => (toString p.1, p.2))
  | .str s => s.data.enum.map (fun p => (toString p.1, JSValue.str (String.singleton p.2)))
  | _ => []

/-- Object spread `\x7b...a, ...b\x7d`. -/
def jsMerge (a b : JSValue) : JSValue :=
  .obj (insertAll (insertAll [] (spreadFields a)) (spreadFields b))

/-- Whitespace recognised by the model of `String.prototype.trim`. -/
def jsWhitespace (c : Char) : Bool :=
  c == ' ' || c == '\t' || c == '\n' || c == '\r'

/-- Left trim on character lists. -/
def trimLeftList (l : List Char) : List Char :=
  l.dropWhile jsWhitespace

/-- Right trim on character lists. -/
def trimRightList (l : List Char) : List Char :=
  (l.reverse.dropWhile jsWhitespace).reverse

/-- Model of `String.prototype.trim`. -/
def jsTrim (s : String) : String :=
  ⟨trimRightList (trimLeftList s.data)⟩

/-- Model of `String.prototype.toLowerCase` (ASCII). -/
def jsLower (s : String) : String :=
  ⟨s.data.map Char.toLower⟩

/-- Model of `String.prototype.toUpperCase` (ASCII). -/
def jsUpper (s : String) : String :=
  ⟨s.data.map Char.toUpper⟩

/-- The `forbiddenHeaders` set of `client.js`. -/
def forbiddenHeaders : List String :=
  ["x-meshes-publishable-key", "x-meshes-client", "content-type", "accept"]

/-- The `validMethods` list of `client.js`. -/
def validMethods : List String := ["POST"]

/-- Builds a `MeshesApiError` value with optional `data` payload
(`src/lib/errors.js`). -/
def mkMeshes (msg : String) (data : Option JSValue) : JSValue :=
  .errv "MeshesApiError" msg data

/-- Whether a thrown/rejected value is a `MeshesApiError`. -/
def isMeshes : JSValue → Bool
  | .errv n _ _ => n == "MeshesApiError"
  | _ => false

/-- The entry loop of `#cleanHeaders`: trims key and value, drops
non-string values, empty-after-trim entries and reserved names, and writes
the survivors into the accumulator. -/
def cleanHeadersLoop : List (String × JSValue) → List (String × String) → List (String × String)
  | [], acc => acc
  | (key, value) :: rest, acc =>
      match value with
      | .str sv =>
          let k := jsTrim key
          let v := jsTrim sv
          if k = "" ∨ v = "" then cleanHeadersLoop rest acc
          else if jsLower k ∈ forbiddenHeaders then cleanHeadersLoop rest acc
          else cleanHeadersLoop rest (insertKV acc k v)
      | _ => cleanHeadersLoop rest acc

/-- Model of `#cleanHeaders` (`client.js` lines 206-227). -/
def cleanHeaders (headers : JSValue) : List (String × String) :=
  if !truthy headers || typeofJS headers != "object" then []
  else cleanHeadersLoop (spreadFields headers) []

/-- Character class `[A-Za-z0-9\-.]` of the publishable-key pattern. -/
def isKeyChar (c : Char) : Bool :=
  c.isAlpha || c.isDigit || c == '-' || c == '.'

/-- Matches the tail `([A-Za-z0-9\-.]+)_([A-Za-z0-9\-.]+)_([^_]+)$` of the
key pattern.  Because the first two classes exclude the delimiter, the
regex decomposition is unique and greedy scanning is exact. -/
def keyTail (cs : List Char) : Bool :=
  let a := cs.takeWhile isKeyChar
  match cs.dropWhile isKeyChar with
  | c1 :: rest1 =>
      if c1 = '_' then
        let b := rest1.takeWhile isKeyChar
        match rest1.dropWhile isKeyChar with
        | c2 :: rest2 =>
            if c2 = '_' then
              !a.isEmpty && !b.isEmpty && !rest2.isEmpty && rest2.all (fun c => c != '_')
            else false
        | [] => false
      else false
  | [] => false

/-- Model of `MESHES_PUBLISHABLE_KEY_REGEX.test` (`client.js` lines 15-16). -/
def keyRegexTest (s : String) : Bool :=
  decide (s.data.take 9 = "mesh_pub_".data) && keyTail (s.data.drop 9)

/-- The structural key pattern as the specification words it: the literal
prefix, then three non-empty segments separated by two underscore
delimiters, the first two over letters/digits/dot/hyphen, the last over
arbitrary non-underscore characters. -/
def keyPatternSpec (s : String) : Prop :=
  ∃ a b c : List Char,
    a ≠ [] ∧ b ≠ [] ∧ c ≠ [] ∧
    (∀ x ∈ a, isKeyChar x) ∧ (∀ x ∈ b, isKeyChar x) ∧ (∀ x ∈ c, x ≠ '_') ∧
    s.data = "mesh_pub_".data ++ (a ++ '_' :: (b ++ '_' :: c))

/-- Model of `#validateEvent` (`client.js` lines 180-199). -/
def validateEvent (event : JSValue) : Option JSValue :=
  if !truthy event || typeofJS event != "object" then
    some (mkMeshes "Invalid event: must be an object" (some event))
  else
    match getProp event "event" with
    | .str s =>
        if jsTrim s = "" then
          some (mkMeshes "Invalid event: missing event string" (some event))
        else
          let payload := getProp event "payload"
          if !truthy payload || typeofJS payload != "object" then
            some (mkMeshes "Invalid event: missing payload object" (some event))
          else
            match getProp payload "email" with
            | .str e =>
                if jsTrim e = "" then
                  some (mkMeshes "Invalid event: missing payload.email" (some event))
                else none
            | _ => some (mkMeshes "Invalid event: missing payload.email" (some event))
    | _ => some (mkMeshes "Invalid event: missing event string" (some event))

/-- The `defaultOptions` constant of `client.js`. -/
def defaultOptions : JSValue :=
  .obj [("version", .str "v1"), ("timeout", .num 5000), ("debug", .bool false)]

/-- The per-client state captured at construction time
(`#publishableKey`, `#options`, `#apiBaseUrl`, `#apiHeaders`,
`#apiTimeout`, `#debug`). -/
structure ClientConfig where
  publishableKey : String
  ctorOptions : JSValue
  apiBaseUrl : JSValue
  apiHeaders : List (String × String)
  apiTimeout : JSValue
  debug : Bool

/-- The constructor loop over `options.headers` entries: non-string values
and reserved names are hard failures. -/
def ctorHeadersCheck (headersVal : JSValue) : List (String × JSValue) → Option JSValue
  | [] => none
  | (k, v) :: rest =>
      match v with
      | .str _ =>
          if jsLower k ∈ forbiddenHeaders then
            some (mkMeshes "Header not allowed" (some headersVal))
          else ctorHeadersCheck headersVal rest
      | _ => some (mkMeshes "Invalid request header value" (some headersVal))

/-- The constructor timeout check (`client.js` lines 90-98). -/
def ctorTimeoutCheck (t : JSValue) : Option JSValue :=
  if typeofJS t = "undefined" then none
  else match t with
    | .num q =>
        if q < 1000 ∨ q > 30000 then
          some (mkMeshes "Unsupported request timeout" none)
        else none
    | _ => some (mkMeshes "Invalid request timeout" none)

/-- The constructor headers gate (`client.js` lines 100-122): shape check,
then the per-entry loop. -/
def ctorHeadersGate (h : JSValue) : Option JSValue :=
  if typeofJS h = "undefined" then none
  else if !truthy h || typeofJS h != "object" || isArrayJS h then
    some (mkMeshes "Invalid additional request headers" (some h))
  else ctorHeadersCheck h (spreadFields h)

/-- `#apiHeaders`: cleaned constructor headers overlaid by the three
contract headers (`client.js` lines 128-133). -/
def apiHeadersOf (h : JSValue) : List (String × String) :=
  insertKV (insertKV (insertKV (cleanHeaders h)
    "X-Meshes-Client" "Meshes Events Client v1.0.0")
    "Content-Type" "application/json")
    "Accept" "application/json"

/-- Model of the `MeshesEventsClient` constructor (`client.js` lines 64-136). -/
def mkClient (publishableKey options : JSValue) : Except JSValue ClientConfig :=
  match publishableKey with
  | .str s =>
      if !keyRegexTest s then
        .error (mkMeshes "Missing or invalid publishable key" none)
      else if !truthy options || typeofJS options != "object" then
        .error (mkMeshes "Invalid options object" (some options))
      else
        let merged := jsMerge defaultOptions options
        match getProp merged "version" with
        | .str ver =>
            if ver ≠ "v1" then
              .error (mkMeshes "Unsupported API version" none)
            else
              match ctorTimeoutCheck (getProp merged "timeout") with
              | some e => .error e
              | none =>
                  match ctorHeadersGate (getProp merged "headers") with
                  | some e => .error e
                  | none =>
                      let baseUrl : JSValue :=
                        match getProp merged "apiBaseUrl" with
                        | .undefinedV => .str ("https://api.meshes.io/api/" ++ ver)
                        | .null => .str ("https://api.meshes.io/api/" ++ ver)
                        | v => v
                      .ok { publishableKey := s
                            ctorOptions := merged
                            apiBaseUrl := baseUrl
                            apiHeaders := apiHeadersOf (getProp merged "headers")
                            apiTimeout := getProp merged "timeout"
                            debug := match getProp merged "debug" with
                                     | .bool true => true
                                     | _ => false }
        | _ => .error (mkMeshes "Invalid API version" none)
  | _ => .error (mkMeshes "Missing or invalid publishable key" none)

/-- Host helpers the client delegates to, supplied as total functions. -/
structure JsEnv where
  jsonParse : String → Option JSValue
  stringifyJson : JSValue → String
  queryToString : JSValue → String
  anyToString : JSValue → String

/-- Behaviour of the single transport dispatch: a rejection with an
arbitrary value, or a response with `ok`/`status`/`statusText` and a body
read that either yields text or raises an arbitrary value. -/
inductive FetchOutcome where
  | reject : JSValue → FetchOutcome
  | resp : Bool → ℚ → String → Except JSValue String → FetchOutcome

/-- Model of `readBody` (`src/lib/helpers.js`): empty text is `null`, JSON
text parses, other text passes through; a read failure propagates. -/
def readBodyModel (env : JsEnv) (r : Except JSValue String) : Except JSValue JSValue :=
  match r with
  | .error e => .error e
  | .ok text =>
      if text = "" then .ok .null
      else match env.jsonParse text with
        | some v => .ok v
        | none => .ok (.str text)

/-- `#request` step 1: `typeof options !== "object"`. -/
def validateOptionsShape (options : JSValue) : Option JSValue :=
  if typeofJS options != "object" then
    some (mkMeshes "Invalid request options" (some options))
  else none

/-- `#request` step 2: `options?.method?.toUpperCase()` and the method
checks.  On a non-string, non-nullish `method` the optional call raises a
raw `TypeError` exactly as the source expression would. -/
def validateMethodField (options : JSValue) : Option JSValue :=
  match getProp options "method" with
  | .undefinedV => some (mkMeshes "Invalid request method" (some options))
  | .null => some (mkMeshes "Invalid request method" (some options))
  | .str m =>
      let mu := jsUpper m
      if mu = "" then some (mkMeshes "Invalid request method" (some options))
      else if mu ∉ validMethods then
        some (mkMeshes "Unsupported request method" (some options))
      else none
  | _ => some (.errv "TypeError" "toUpperCase is not a function" none)

/-- `#request` step 3: the path checks. -/
def validatePathField (options : JSValue) : Option JSValue :=
  match getProp options "path" with
  | .str s =>
      if jsTrim s = "" ∨ jsTrim s = "/" then
        some (mkMeshes "Invalid request path" (some options))
      else none
  | _ => some (mkMeshes "Invalid request path" (some options))

/-- `#request` step 4: the per-call timeout checks. -/
def validateTimeoutField (options : JSValue) : Option JSValue :=
  let t := getProp options "timeout"
  if typeofJS t = "undefined" then none
  else match t with
    | .num q =>
        if q < 1000 ∨ q > 30000 then
          some (mkMeshes "Unsupported request timeout" (some options))
        else none
    | _ => some (mkMeshes "Invalid request timeout" (some options))

/-- `#request` step 5: the query checks. -/
def validateQueryField (options : JSValue) : Option JSValue :=
  let q := getProp options "query"
  if typeofJS q = "undefined" then none
  else if !truthy q || typeofJS q != "object" || isArrayJS q then
    some (mkMeshes "Invalid request query params" (some options))
  else none

/-- The full synchronous validation block of `#request` (`client.js`
lines 252-295), returning the first thrown value. -/
def requestValidate (options : JSValue) : Option JSValue :=
  match validateOptionsShape options with
  | some e => some e
  | none =>
  match validateMethodField options with
  | some e => some e
  | none =>
  match validatePathField options with
  | some e => some e
  | none =>
  match validateTimeoutField options with
  | some e => some e
  | none => validateQueryField options

/-- `effectiveTimeout` of `#request`: the per-call value when it is a
number, otherwise the client default. -/
def effectiveTimeoutOf (cfg : ClientConfig) (options : JSValue) : JSValue :=
  match getProp options "timeout" with
  | .num q => .num q
  | _ => cfg.apiTimeout

/-- The outgoing header build of `#request`: cleaned per-call headers
overlaid by `#apiHeaders`. -/
def buildRequestHeaders (cfg : ClientConfig) (options : JSValue) : List (String × String) :=
  insertAll (cleanHeaders (getProp options "headers")) cfg.apiHeaders

/-- The headers of the dispatched request: the built headers after
`#includeApiPublishableKey` has written the publishable-key header
(`client.js` lines 167-174 and 302-314; with a falsy key the pipeline
throws before dispatch instead). -/
def outgoingHeaders (cfg : ClientConfig) (options : JSValue) : List (String × String) :=
  insertKV (buildRequestHeaders cfg options) "X-Meshes-Publishable-Key" cfg.publishableKey

/-- The request URL: base url, slash-normalised path, query string. -/
def requestUrl (env : JsEnv) (cfg : ClientConfig) (options : JSValue) : String :=
  let path := match getProp options "path" with
    | .str s => s
    | v => env.anyToString v
  let requestPath := match path.data with
    | '/' :: _ => path
    | _ => "/" ++ path
  let q := getProp options "query"
  let qs := if truthy q then "?" ++ env.queryToString q else ""
  (match cfg.apiBaseUrl with
   | .str b => b
   | v => env.anyToString v) ++ requestPath ++ qs

/-- Settlement of the inner promise of `#request`: validation throws reject
it, the try block wraps its own throws, and every transport outcome is
normalised exactly as in `client.js` lines 297-373. -/
def requestSettle (env : JsEnv) (cfg : ClientConfig) (options : JSValue)
    (f : FetchOutcome) : Except JSValue JSValue :=
  match requestValidate options with
  | some e => .error e
  | none =>
      if cfg.publishableKey = "" then
        .error (mkMeshes "Unexpected Error" (some (mkMeshes "No Publishable Key Data" none)))
      else
        match f with
        | .reject e => .error (mkMeshes "Request Failure" (some e))
        | .resp ok status statusText textRes =>
            if ok then
              match readBodyModel env textRes with
              | .ok data => .ok data
              | .error err => .error (mkMeshes "Error parsing response data" (some err))
            else
              match readBodyModel env textRes with
              | .ok data =>
                  .error (mkMeshes "Meshes API request failed"
                    (some (.obj [("status", .num status), ("statusText", .str statusText),
                                 ("data", data)])))
              | .error err =>
                  .error (mkMeshes "Error parsing request failure"
                    (some (.obj [("status", .num status), ("statusText", .str statusText),
                                 ("error", err)])))

/-- Observable delivery events of one pipeline call, in order. -/
inductive DEvent where
  | callbackInvoked : DEvent
  | promiseResolved : DEvent
  | promiseRejected : DEvent
deriving DecidableEq, Repr

/-- What the outer `.then`/`.catch` chain of `#request` delivers: the
public return shape, the callback invocations, the settlement of the
returned promise, and the order of the delivery events. -/
structure DeliverResult where
  retIsUndefined : Bool
  cbCalls : List (Except JSValue JSValue)
  promiseOutcome : Except JSValue JSValue
  order : List DEvent

/-- Model of the `.then`/`.catch` handlers of `#request` (`client.js`
lines 375-405): the success handler calls `done(null, result)` and passes
the result on; the failure handler calls `done(err)` and rethrows. -/
def deliver (o : Except JSValue JSValue) (hasCb : Bool) : DeliverResult :=
  match o with
  | .ok r =>
      { retIsUndefined := hasCb
        cbCalls := if hasCb then [.ok r] else []
        promiseOutcome := .ok r
        order := (if hasCb then [DEvent.callbackInvoked] else []) ++ [DEvent.promiseResolved] }
  | .error e =>
      { retIsUndefined := hasCb
        cbCalls := if hasCb then [.error e] else []
        promiseOutcome := .error e
        order := (if hasCb then [DEvent.callbackInvoked] else []) ++ [DEvent.promiseRejected] }

/-- The merged request options built by `emit`/`emitBatch`:
`\x7b...this.#options, ...options, path, method: "POST", body\x7d`. -/
def mergeReqOpts (ctorOpts perCall : JSValue) (path methodName : String)
    (body : JSValue) : JSValue :=
  .obj (insertKV (insertKV (insertKV
          (insertAll (insertAll [] (spreadFields ctorOpts)) (spreadFields perCall))
          "path" (.str path))
          "method" (.str methodName))
          "body" body)

/-- Outcome of one public `emit`/`emitBatch` call: a synchronous throw, or
a delivered pipeline result. -/
inductive CallOutcome where
  | thrown : JSValue → CallOutcome
  | proceeded : DeliverResult → CallOutcome

/-- Model of `emit` (`client.js` lines 416-428). -/
def emitCall (env : JsEnv) (cfg : ClientConfig) (event opts : JSValue)
    (hasCb : Bool) (f : FetchOutcome) : CallOutcome :=
  match validateEvent event with
  | some e => .thrown e
  | none =>
      .proceeded (deliver
        (requestSettle env cfg (mergeReqOpts cfg.ctorOptions opts "/events" "POST" event) f)
        hasCb)

/-- Element-wise batch validation: first failure wins. -/
def validateBatchElems : List JSValue → Option JSValue
  | [] => none
  | e :: rest =>
      match validateEvent e with
      | some x => some x
      | none => validateBatchElems rest

/-- The synchronous argument checks of `emitBatch` (`client.js`
lines 438-455). -/
def emitBatchSync (events : JSValue) : Option JSValue :=
  match events with
  | .arr xs =>
      if xs.length = 0 then some (mkMeshes "Events array cannot be empty" none)
      else if xs.length > 100 then
        some (mkMeshes "Bulk emit supports up to 100 events per request"
          (some (.obj [("count", .num (xs.length : ℚ))])))
      else validateBatchElems xs
  | v => some (mkMeshes "Events must be an array" (some v))

/-- Model of `emitBatch` (`client.js` lines 438-466). -/
def emitBatchCall (env : JsEnv) (cfg : ClientConfig) (events opts : JSValue)
    (hasCb : Bool) (f : FetchOutcome) : CallOutcome :=
  match emitBatchSync events with
  | some e => .thrown e
  | none =>
      .proceeded (deliver
        (requestSettle env cfg (mergeReqOpts cfg.ctorOptions opts "/events/bulk" "POST" events) f)
        hasCb)

/-- Ordered step events of one `#request` run: the deadline timer is armed
at entry when the cancellation primitive exists (`client.js` lines
240-246), then validation runs, then at most one transport dispatch. -/
inductive REvent where
  | armTimer : REvent
  | validated : REvent
  | validationFailed : REvent
  | fetchStart : String → REvent
deriving DecidableEq, Repr

/-- Whether a step event is a transport dispatch. -/
def isFetchEvent : REvent → Bool
  | .fetchStart _ => true
  | _ => false

/-- The ordered step trace of `#request`. -/
def requestTrace (env : JsEnv) (cfg : ClientConfig) (options : JSValue)
    (hasAC : Bool) : List REvent :=
  (if hasAC then [REvent.armTimer] else []) ++
  match requestValidate options with
  | some _ => [REvent.validationFailed]
  | none =>
      REvent.validated ::
        (if cfg.publishableKey = "" then []
         else [REvent.fetchStart (requestUrl env cfg options)])

/-- The ordered step trace of `emitBatch` once the synchronous argument
checks pass (a synchronous throw produces no pipeline steps). -/
def emitBatchTrace (env : JsEnv) (cfg : ClientConfig) (events opts : JSValue)
    (hasAC : Bool) : List REvent :=
  match emitBatchSync events with
  | some _ => []
  | none => requestTrace env cfg (mergeReqOpts cfg.ctorOptions opts "/events/bulk" "POST" events) hasAC

/-- Wraps a cleaned header list back into a JavaScript object value. -/
def toHeaderObj (l : List (String × String)) : JSValue :=
  .obj (l.map fun p => (p.1, JSValue.str p.2))

/-- A reference environment with trivial host helpers, used to evaluate the
model at concrete inputs. -/
def trivEnv : JsEnv :=
  { jsonParse := fun _ => none
    stringifyJson := fun _ => ""
    queryToString := fun _ => ""
    anyToString := fun _ => "" }

/-- A concrete well-formed event record. -/
def validEvent0 : JSValue :=
  .obj [("event", .str "signup"), ("payload", .obj [("email", .str "a@b.com")])]

/-- A concrete client configuration, as produced by constructing a client
from a valid key with no options. -/
def cfg0 : ClientConfig :=
  { publishableKey := "mesh_pub_a_b_c"
    ctorOptions := jsMerge defaultOptions (.obj [])
    apiBaseUrl := .str "https://api.meshes.io/api/v1"
    apiHeaders := [("X-Meshes-Client", "Meshes Events Client v1.0.0"),
                   ("Content-Type", "application/json"), ("Accept", "application/json")]
    apiTimeout := .num 5000
    debug := false }

section AssocLemmas

variable {α : Type}

theorem lookupKV_insertKV (l : List (String × α)) (k k' : String) (v : α) :
    lookupKV k' (insertKV l k v) = if k = k' then some v else lookupKV k' l := by
  induction l with
  | nil => simp [insertKV, lookupKV]
  | cons p rest ih =>
      obtain ⟨k1, v1⟩ := p
      by_cases h1 : k1 = k
      · subst h1
        simp only [insertKV, if_pos rfl, lookupKV]
        by_cases h2 : k1 = k'
        · simp [h2, lookupKV]
        · simp [h2, lookupKV]
      · have h1' : k ≠ k1 := Ne.symm h1
        simp only [insertKV, if_neg h1, lookupKV]
        by_cases h2 : k1 = k'
        · subst h2
          simp [lookupKV, h1']
        · simp [h2, ih, lookupKV]

theorem mem_insertKV {l : List (String × α)} {k : String} {v : α} {p : String × α}
    (h : p ∈ insertKV l k v) : p ∈ l ∨ p = (k, v) := by
  induction l with
  | nil => simp [insertKV] at h; simp [h]
  | cons q rest ih =>
      obtain ⟨k1, v1⟩ := q
      by_cases h1 : k1 = k
      · subst h1
        simp only [insertKV, if_pos rfl] at h
        rcases List.mem_cons.mp h with h2 | h2
        · right; simpa using h2
        · left; exact List.mem_cons_of_mem _ h2
      · simp only [insertKV, if_neg h1] at h
        rcases List.mem_cons.mp h with h2 | h2
        · left; exact h2 ▸ List.mem_cons_self _ _
        · rcases ih h2 with h3 | h3
          · left; exact List.mem_cons_of_mem _ h3
          · right; exact h3

theorem keys_insertKV (l : List (String × α)) (k : String) (v : α) :
    (insertKV l k v).map Prod.fst =
      if k ∈ l.map Prod.fst then l.map Prod.fst else l.map Prod.fst ++ [k] := by
  induction l with
  | nil => simp [insertKV]
  | cons p rest ih =>
      obtain ⟨k1, v1⟩ := p
      by_cases h1 : k1 = k
      · subst h1; simp [insertKV]
      · have h1' : k ≠ k1 := Ne.symm h1
        simp only [insertKV, if_neg h1, List.map_cons]
        by_cases h2 : k ∈ rest.map Prod.fst
        · simp [h2, ih, h1']
        · simp [h2, ih, h1']

theorem nodupKeys_insertKV {l : List (String × α)} {k : String} {v : α}
    (h : (l.map Prod.fst).Nodup) : ((insertKV l k v).map Prod.fst).Nodup := by
  rw [keys_insertKV]
  by_cases h1 : k ∈ l.map Prod.fst
  · simpa [h1]
  · rw [if_neg h1, List.nodup_append]
    exact ⟨h, List.nodup_singleton _,
      fun a ha hk => h1 (by rwa [List.mem_singleton.mp hk] at ha)⟩

theorem insertKV_not_mem_append {l : List (String × α)} {k : String} {v : α}
    (h : k ∉ l.map Prod.fst) : insertKV l k v = l ++ [(k, v)] := by
  induction l with
  | nil => simp [insertKV]
  | cons p rest ih =>
      obtain ⟨k1, v1⟩ := p
      simp only [List.map_cons, List.mem_cons] at h
      push_neg at h
      have hne : k1 ≠ k := Ne.symm h.1
      simp only [insertKV, if_neg hne, List.cons_append, List.cons.injEq, true_and]
      exact ih h.2

theorem lookupKV_insertAll_not_mem {base upd : List (String × α)} {k : String}
    (h : k ∉ upd.map Prod.fst) :
    lookupKV k (insertAll base upd) = lookupKV k base := by
  induction upd generalizing base with
  | nil => simp [insertAll]
  | cons p rest ih =>
      obtain ⟨k1, v1⟩ := p
      simp only [List.map_cons, List.mem_cons] at h
      push_neg at h
      show lookupKV k (insertAll (insertKV base k1 v1) rest) = _
      rw [ih h.2, lookupKV_insertKV, if_neg (fun h2 => h.1 h2.symm)]

theorem lookupKV_insertAll_mem {base upd : List (String × α)} {k : String}
    (hnd : (upd.map Prod.fst).Nodup) (h : k ∈ upd.map Prod.fst) :
    lookupKV k (insertAll base upd) = lookupKV k upd := by
  induction upd generalizing base with
  | nil => simp at h
  | cons p rest ih =>
      obtain ⟨k1, v1⟩ := p
      simp only [List.map_cons, List.nodup_cons] at hnd
      show lookupKV k (insertAll (insertKV base k1 v1) rest) = _
      by_cases h1 : k1 = k
      · subst h1
        rw [lookupKV_insertAll_not_mem hnd.1, lookupKV_insertKV, if_pos rfl]
        simp [lookupKV]
      · simp only [List.map_cons, List.mem_cons] at h
        rcases h with h2 | h2
        · exact absurd h2.symm h1
        · rw [ih hnd.2 h2]
          simp [lookupKV, h1]

theorem nodupKeys_insertAll {base upd : List (String × α)}
    (h : (base.map Prod.fst).Nodup) :
    ((insertAll base upd).map Prod.fst).Nodup := by
  induction upd generalizing base with
  | nil => simpa [insertAll]
  | cons p rest ih =>
      show (((insertAll (insertKV base p.1 p.2) rest)).map Prod.fst).Nodup
      exact ih (nodupKeys_insertKV h)

end AssocLemmas

section TrimLemmas

theorem head?_dropWhile_not (p : Char → Bool) (l : List Char) :
    ∀ c, (l.dropWhile p).head? = some c → p c = false := by
  induction l with
  | nil => intro c h; simp [List.dropWhile] at h
  | cons a rest ih =>
      intro c h
      simp only [List.dropWhile] at h
      by_cases ha : p a
      · rw [ha] at h; exact ih c (by simpa using h)
      · simp only [Bool.not_eq_true] at ha
        rw [ha] at h
        simp only [List.head?] at h
        cases h; simpa using ha

theorem dropWhile_of_head_not (p : Char → Bool) (l : List Char)
    (h : ∀ c, l.head? = some c → p c = false) : l.dropWhile p = l := by
  cases l with
  | nil => rfl
  | cons a rest =>
      have := h a rfl
      simp [List.dropWhile, this]

theorem dropWhile_idem (p : Char → Bool) (l : List Char) :
    (l.dropWhile p).dropWhile p = l.dropWhile p :=
  dropWhile_of_head_not p _ (head?_dropWhile_not p l)

theorem jsTrim_idem (s : String) : jsTrim (jsTrim s) = jsTrim s := by
  unfold jsTrim trimRightList trimLeftList
  simp only
  set m := s.data.dropWhile jsWhitespace with hm
  set t := (m.reverse.dropWhile jsWhitespace).reverse with ht
  have hdatat : (String.mk t).data = t := rfl
  have htrev : t.reverse = m.reverse.dropWhile jsWhitespace := by
    rw [ht, List.reverse_reverse]
  have hsplit : m = t ++ (m.reverse.takeWhile jsWhitespace).reverse := by
    conv_lhs => rw [← List.reverse_reverse m,
      ← List.takeWhile_append_dropWhile (p := jsWhitespace) (l := m.reverse)]
    rw [List.reverse_append, ht]
  have hheadt : ∀ c, t.head? = some c → jsWhitespace c = false := by
    intro c hc
    cases hT : t with
    | nil => rw [hT] at hc; simp at hc
    | cons a rest =>
        rw [hT] at hc
        simp only [List.head?] at hc
        cases hc
        have hmhead : m.head? = some c := by
          rw [hsplit, hT]; rfl
        exact head?_dropWhile_not jsWhitespace s.data c (by rw [← hm]; exact hmhead)
  have h1 : (String.mk t).data.dropWhile jsWhitespace = t := by
    rw [hdatat]; exact dropWhile_of_head_not _ _ hheadt
  have h2 : List.dropWhile jsWhitespace t.reverse = t.reverse := by
    rw [htrev]; exact dropWhile_idem _ _
  rw [h1, h2, List.reverse_reverse]

end TrimLemmas

section CleanLemmas

theorem cleanHeadersLoop_mem :
    ∀ (entries : List (String × JSValue)) (acc : List (String × String))
      (p : String × String), p ∈ cleanHeadersLoop entries acc →
      p ∈ acc ∨ ∃ k0 v0, (k0, JSValue.str v0) ∈ entries ∧
        p = (jsTrim k0, jsTrim v0) ∧ jsTrim k0 ≠ "" ∧ jsTrim v0 ≠ "" ∧
        jsLower (jsTrim k0) ∉ forbiddenHeaders := by
  intro entries
  induction entries with
  | nil => intro acc p h; left; simpa [cleanHeadersLoop] using h
  | cons q rest ih =>
      intro acc p h
      obtain ⟨key, value⟩ := q
      cases value with
      | str sv =>
          simp only [cleanHeadersLoop] at h
          by_cases h1 : jsTrim key = "" ∨ jsTrim sv = ""
          · rw [if_pos h1] at h
            rcases ih acc p h with h2 | ⟨k0, v0, h3, h4⟩
            · left; exact h2
            · right; exact ⟨k0, v0, List.mem_cons_of_mem _ h3, h4⟩
          · rw [if_neg h1] at h
            push_neg at h1
            by_cases h2 : jsLower (jsTrim key) ∈ forbiddenHeaders
            · rw [if_pos h2] at h
              rcases ih acc p h with h3 | ⟨k0, v0, h4, h5⟩
              · left; exact h3
              · right; exact ⟨k0, v0, List.mem_cons_of_mem _ h4, h5⟩
            · rw [if_neg h2] at h
              rcases ih _ p h with h3 | ⟨k0, v0, h4, h5⟩
              · rcases mem_insertKV h3 with h4 | h4
                · left; exact h4
                · right
                  exact ⟨key, sv, List.mem_cons_self _ _, h4, h1.1, h1.2, h2⟩
              · right; exact ⟨k0, v0, List.mem_cons_of_mem _ h4, h5⟩
      | num q0 =>
          simp only [cleanHeadersLoop] at h
          rcases ih acc p h with h2 | ⟨k0, v0, h3, h4⟩
          · left; exact h2
          · right; exact ⟨k0, v0, List.mem_cons_of_mem _ h3, h4⟩
      | bool b =>
          simp only [cleanHeadersLoop] at h
          rcases ih acc p h with h2 | ⟨k0, v0, h3, h4⟩
          · left; exact h2
          · right; exact ⟨k0, v0, List.mem_cons_of_mem _ h3, h4⟩
      | null =>
          simp only [cleanHeadersLoop] at h
          rcases ih acc p h with h2 | ⟨k0, v0, h3, h4⟩
          · left; exact h2
          · right; exact ⟨k0, v0, List.mem_cons_of_mem _ h3, h4⟩
      | undefinedV =>
          simp only [cleanHeadersLoop] at h
          rcases ih acc p h with h2 | ⟨k0, v0, h3, h4⟩
          · left; exact h2
          · right; exact ⟨k0, v0, List.mem_cons_of_mem _ h3, h4⟩
      | obj fs =>
          simp only [cleanHeadersLoop] at h
          rcases ih acc p h with h2 | ⟨k0, v0, h3, h4⟩
          · left; exact h2
          · right; exact ⟨k0, v0, List.mem_cons_of_mem _ h3, h4⟩
      | arr xs =>
          simp only [cleanHeadersLoop] at h
          rcases ih acc p h with h2 | ⟨k0, v0, h3, h4⟩
          · left; exact h2
          · right; exact ⟨k0, v0, List.mem_cons_of_mem _ h3, h4⟩
      | fn =>
          simp only [cleanHeadersLoop] at h
          rcases ih acc p h with h2 | ⟨k0, v0, h3, h4⟩
          · left; exact h2
          · right; exact ⟨k0, v0, List.mem_cons_of_mem _ h3, h4⟩
      | errv n msg d =>
          simp only [cleanHeadersLoop] at h
          rcases ih acc p h with h2 | ⟨k0, v0, h3, h4⟩
          · left; exact h2
          · right; exact ⟨k0, v0, List.mem_cons_of_mem _ h3, h4⟩

theorem cleanHeadersLoop_nodupKeys :
    ∀ (entries : List (String × JSValue)) (acc : List (String × String)),
      (acc.map Prod.fst).Nodup → ((cleanHeadersLoop entries acc).map Prod.fst).Nodup := by
  intro entries
  induction entries with
  | nil => intro acc h; simpa [cleanHeadersLoop]
  | cons q rest ih =>
      intro acc h
      obtain ⟨key, value⟩ := q
      cases value <;> simp only [cleanHeadersLoop] <;> try exact ih acc h
      case str sv =>
        by_cases h1 : jsTrim key = "" ∨ jsTrim sv = ""
        · rw [if_pos h1]; exact ih acc h
        · rw [if_neg h1]
          by_cases h2 : jsLower (jsTrim key) ∈ forbiddenHeaders
          · rw [if_pos h2]; exact ih acc h
          · rw [if_neg h2]; exact ih _ (nodupKeys_insertKV h)

theorem cleanHeaders_mem {h : JSValue} {p : String × String}
    (hp : p ∈ cleanHeaders h) :
    ∃ k0 v0, (k0, JSValue.str v0) ∈ spreadFields h ∧
      p = (jsTrim k0, jsTrim v0) ∧ p.1 ≠ "" ∧ p.2 ≠ "" ∧
      jsLower p.1 ∉ forbiddenHeaders := by
  unfold cleanHeaders at hp
  by_cases hc : (!truthy h || typeofJS h != "object") = true
  · rw [if_pos hc] at hp; simp at hp
  · rw [if_neg hc] at hp
    rcases cleanHeadersLoop_mem _ _ _ hp with h1 | ⟨k0, v0, h2, h3, h4, h5, h6⟩
    · simp at h1
    · exact ⟨k0, v0, h2, h3, by rw [h3]; exact h4, by rw [h3]; exact h5, by rw [h3]; exact h6⟩

theorem cleanHeaders_nodupKeys (h : JSValue) :
    ((cleanHeaders h).map Prod.fst).Nodup := by
  unfold cleanHeaders
  by_cases hc : (!truthy h || typeofJS h != "object") = true
  · rw [if_pos hc]; simp
  · rw [if_neg hc]; exact cleanHeadersLoop_nodupKeys _ _ (by simp)

theorem cleanHeadersLoop_normalized :
    ∀ (l : List (String × String)) (acc : List (String × String)),
      (∀ p ∈ l, jsTrim p.1 = p.1 ∧ jsTrim p.2 = p.2 ∧ p.1 ≠ "" ∧ p.2 ≠ "" ∧
        jsLower p.1 ∉ forbiddenHeaders) →
      (l.map Prod.fst).Nodup →
      (∀ k ∈ l.map Prod.fst, k ∉ acc.map Prod.fst) →
      cleanHeadersLoop (l.map fun p => (p.1, JSValue.str p.2)) acc = acc ++ l := by
  intro l
  induction l with
  | nil => intro acc _ _ _; simp [cleanHeadersLoop]
  | cons q rest ih =>
      intro acc hnorm hnd hdisj
      obtain ⟨k, v⟩ := q
      obtain ⟨ht1, ht2, hne1, hne2, hforb⟩ := hnorm (k, v) (List.mem_cons_self _ _)
      simp only [List.map_cons, cleanHeadersLoop]
      rw [ht1, ht2, if_neg (by push_neg; exact ⟨hne1, hne2⟩), if_neg (ht1 ▸ hforb)]
      have hknotacc : k ∉ acc.map Prod.fst :=
        hdisj k (by simp)
      rw [insertKV_not_mem_append hknotacc]
      simp only [List.map_cons, List.nodup_cons] at hnd
      rw [ih (acc ++ [(k, v)])
        (fun p hp => hnorm p (List.mem_cons_of_mem _ hp)) hnd.2
        (fun k' hk' => by
          simp only [List.map_append, List.mem_append, List.map_cons]
          push_neg
          refine ⟨hdisj k' (by simp [hk']), ?_⟩
          simp only [List.map_nil, List.mem_singleton]
          intro hkk
          exact hnd.1 (hkk ▸ hk'))]
      simp

theorem cleanHeaders_obj (fs : List (String × JSValue)) :
    cleanHeaders (.obj fs) = cleanHeadersLoop fs [] := by
  simp [cleanHeaders, truthy, typeofJS, spreadFields]

theorem cleanHeaders_idem (h : JSValue) :
    cleanHeaders (toHeaderObj (cleanHeaders h)) = cleanHeaders h := by
  have hnorm : ∀ p ∈ cleanHeaders h, jsTrim p.1 = p.1 ∧ jsTrim p.2 = p.2 ∧
      p.1 ≠ "" ∧ p.2 ≠ "" ∧ jsLower p.1 ∉ forbiddenHeaders := by
    intro p hp
    obtain ⟨k0, v0, _, hpe, hne1, hne2, hforb⟩ := cleanHeaders_mem hp
    refine ⟨?_, ?_, hne1, hne2, hforb⟩
    · rw [hpe]; exact jsTrim_idem k0
    · rw [hpe]; exact jsTrim_idem v0
  have hloop := cleanHeadersLoop_normalized (cleanHeaders h) []
    hnorm (cleanHeaders_nodupKeys h) (by simp)
  unfold toHeaderObj
  rw [cleanHeaders_obj]
  simpa using hloop

end CleanLemmas

section KeyLemmas

theorem mem_takeWhile_pred (p : Char → Bool) :
    ∀ (l : List Char), ∀ x ∈ l.takeWhile p, p x = true := by
  intro l
  induction l with
  | nil => intro x hx; simp at hx
  | cons a rest ih =>
      intro x hx
      by_cases ha : p a
      · rw [List.takeWhile_cons, if_pos ha] at hx
        rcases List.mem_cons.mp hx with h | h
        · rwa [h]
        · exact ih x h
      · rw [List.takeWhile_cons, if_neg ha] at hx
        simp at hx

theorem takeWhile_append_all {p : Char → Bool} {a : List Char} (rest : List Char)
    (h : ∀ x ∈ a, p x = true) :
    (a ++ rest).takeWhile p = a ++ rest.takeWhile p := by
  induction a with
  | nil => simp
  | cons x xs ih =>
      have hx : p x = true := h x (List.mem_cons_self _ _)
      simp only [List.cons_append, List.takeWhile_cons, if_pos hx]
      rw [ih (fun y hy => h y (List.mem_cons_of_mem _ hy))]

theorem dropWhile_append_all {p : Char → Bool} {a : List Char} (rest : List Char)
    (h : ∀ x ∈ a, p x = true) :
    (a ++ rest).dropWhile p = rest.dropWhile p := by
  induction a with
  | nil => simp
  | cons x xs ih =>
      have hx : p x = true := h x (List.mem_cons_self _ _)
      simp only [List.cons_append, List.dropWhile_cons, if_pos hx]
      exact ih (fun y hy => h y (List.mem_cons_of_mem _ hy))

theorem isKeyChar_underscore : isKeyChar '_' = false := by decide

theorem keyTail_iff (cs : List Char) :
    keyTail cs = true ↔ ∃ a b c : List Char, a ≠ [] ∧ b ≠ [] ∧ c ≠ [] ∧
      (∀ x ∈ a, isKeyChar x) ∧ (∀ x ∈ b, isKeyChar x) ∧ (∀ x ∈ c, x ≠ '_') ∧
      cs = a ++ '_' :: (b ++ '_' :: c) := by
  constructor
  · intro h
    unfold keyTail at h
    simp only at h
    cases hdrop1 : cs.dropWhile isKeyChar with
    | nil => rw [hdrop1] at h; simp at h
    | cons c1 rest1 =>
        rw [hdrop1] at h
        simp only [] at h
        by_cases hc1 : c1 = '_'
        · subst hc1
          rw [if_pos rfl] at h
          cases hdrop2 : rest1.dropWhile isKeyChar with
          | nil => rw [hdrop2] at h; simp at h
          | cons c2 rest2 =>
              rw [hdrop2] at h
              simp only [] at h
              by_cases hc2 : c2 = '_'
              · subst hc2
                rw [if_pos rfl] at h
                simp only [Bool.and_eq_true, Bool.not_eq_true'] at h
                obtain ⟨⟨⟨hane, hbne⟩, hcne⟩, hall⟩ := h
                have e2 : rest1 = rest1.takeWhile isKeyChar ++ '_' :: rest2 := by
                  conv_lhs => rw [← List.takeWhile_append_dropWhile
                    (p := isKeyChar) (l := rest1)]
                  rw [hdrop2]
                have e1 : cs = cs.takeWhile isKeyChar ++ '_' ::
                    (rest1.takeWhile isKeyChar ++ '_' :: rest2) := by
                  rw [← e2]
                  conv_lhs => rw [← List.takeWhile_append_dropWhile
                    (p := isKeyChar) (l := cs)]
                  rw [hdrop1]
                refine ⟨cs.takeWhile isKeyChar, rest1.takeWhile isKeyChar, rest2,
                  ?_, ?_, ?_, mem_takeWhile_pred _ _, mem_takeWhile_pred _ _, ?_, e1⟩
                · intro hx; rw [hx] at hane; simp at hane
                · intro hx; rw [hx] at hbne; simp at hbne
                · intro hx; rw [hx] at hcne; simp at hcne
                · intro x hx
                  have := List.all_eq_true.mp hall x hx
                  simpa using this
              · rw [if_neg hc2] at h; simp at h
        · rw [if_neg hc1] at h; simp at h
  · rintro ⟨a, b, c, ha, hb, hc, hka, hkb, hcu, rfl⟩
    have hu : ¬ (isKeyChar '_' = true) := by simp [isKeyChar_underscore]
    have htake1 : (a ++ '_' :: (b ++ '_' :: c)).takeWhile isKeyChar = a := by
      rw [takeWhile_append_all _ hka, List.takeWhile_cons, if_neg hu]
      simp
    have hdrop1 : (a ++ '_' :: (b ++ '_' :: c)).dropWhile isKeyChar
        = '_' :: (b ++ '_' :: c) := by
      rw [dropWhile_append_all _ hka, List.dropWhile_cons, if_neg hu]
    have htake2 : (b ++ '_' :: c).takeWhile isKeyChar = b := by
      rw [takeWhile_append_all _ hkb, List.takeWhile_cons, if_neg hu]
      simp
    have hdrop2 : (b ++ '_' :: c).dropWhile isKeyChar = '_' :: c := by
      rw [dropWhile_append_all _ hkb, List.dropWhile_cons, if_neg hu]
    unfold keyTail
    simp only [hdrop1, hdrop2, htake1, htake2, eq_self_iff_true, if_true]
    simp only [Bool.and_eq_true, Bool.not_eq_true']
    refine ⟨⟨⟨?_, ?_⟩, ?_⟩, ?_⟩
    · cases a with
      | nil => exact absurd rfl ha
      | cons x xs => rfl
    · cases b with
      | nil => exact absurd rfl hb
      | cons x xs => rfl
    · cases c with
      | nil => exact absurd rfl hc
      | cons x xs => rfl
    · exact List.all_eq_true.mpr (fun x hx => by simpa using hcu x hx)

theorem keyRegexTest_iff (s : String) : keyRegexTest s = true ↔ keyPatternSpec s := by
  unfold keyRegexTest keyPatternSpec
  rw [Bool.and_eq_true, decide_eq_true_eq]
  constructor
  · rintro ⟨h1, h2⟩
    obtain ⟨a, b, c, ha, hb, hc, hka, hkb, hcu, heq⟩ := (keyTail_iff _).mp h2
    refine ⟨a, b, c, ha, hb, hc, hka, hkb, hcu, ?_⟩
    conv_lhs => rw [← List.take_append_drop 9 s.data]
    rw [h1, heq]
  · rintro ⟨a, b, c, ha, hb, hc, hka, hkb, hcu, heq⟩
    have hlen : ("mesh_pub_".data).length = 9 := rfl
    constructor
    · rw [heq, ← hlen, List.take_left]
    · rw [heq, ← hlen, List.drop_left]
      exact (keyTail_iff _).mpr ⟨a, b, c, ha, hb, hc, hka, hkb, hcu, rfl⟩

end KeyLemmas

section ErrorClassification

theorem validateEvent_isMeshes (ev e : JSValue) (h : validateEvent ev = some e) :
    isMeshes e = true := by
  unfold validateEvent at h
  simp only [] at h
  repeat' split at h
  all_goals first
    | exact Option.noConfusion h
    | (injection h with h; rw [← h]; rfl)

theorem validateBatchElems_isMeshes (xs : List JSValue) (e : JSValue)
    (h : validateBatchElems xs = some e) : isMeshes e = true := by
  induction xs with
  | nil => exact Option.noConfusion h
  | cons x rest ih =>
      unfold validateBatchElems at h
      split at h
      · next e1 heq =>
          injection h with h
          rw [← h]
          exact validateEvent_isMeshes x e1 heq
      · exact ih h

theorem emitBatchSync_isMeshes (events e : JSValue) (h : emitBatchSync events = some e) :
    isMeshes e = true := by
  unfold emitBatchSync at h
  split at h
  · next xs =>
      split at h
      · injection h with h; rw [← h]; rfl
      · split at h
        · injection h with h; rw [← h]; rfl
        · exact validateBatchElems_isMeshes xs e h
  · injection h with h; rw [← h]; rfl

theorem ctorHeadersCheck_isMeshes (hv : JSValue) (entries : List (String × JSValue))
    (e : JSValue) (h : ctorHeadersCheck hv entries = some e) : isMeshes e = true := by
  induction entries with
  | nil => exact Option.noConfusion h
  | cons p rest ih =>
      unfold ctorHeadersCheck at h
      split at h
      · split at h
        · injection h with h; rw [← h]; rfl
        · exact ih h
      · injection h with h; rw [← h]; rfl

theorem ctorTimeoutCheck_isMeshes (t e : JSValue) (h : ctorTimeoutCheck t = some e) :
    isMeshes e = true := by
  unfold ctorTimeoutCheck at h
  repeat' split at h
  all_goals first
    | exact Option.noConfusion h
    | (injection h with h; rw [← h]; rfl)

theorem ctorHeadersGate_isMeshes (hv e : JSValue) (h : ctorHeadersGate hv = some e) :
    isMeshes e = true := by
  unfold ctorHeadersGate at h
  split at h
  · exact Option.noConfusion h
  · split at h
    · injection h with h; rw [← h]; rfl
    · exact ctorHeadersCheck_isMeshes _ _ _ h

theorem mkClient_error_isMeshes (pk opts e : JSValue) (h : mkClient pk opts = .error e) :
    isMeshes e = true := by
  unfold mkClient at h
  simp only [] at h
  repeat' split at h
  all_goals first
    | exact Except.noConfusion h
    | (injection h with h; rw [← h]; rfl)
    | (injection h with h; rw [← h]
       exact ctorTimeoutCheck_isMeshes _ _ (by assumption))
    | (injection h with h; rw [← h]
       exact ctorHeadersGate_isMeshes _ _ (by assumption))

theorem validateOptionsShape_isMeshes (options e : JSValue)
    (h : validateOptionsShape options = some e) : isMeshes e = true := by
  unfold validateOptionsShape at h
  split at h
  · injection h with h; rw [← h]; rfl
  · exact Option.noConfusion h

theorem validateMethodField_isMeshes (options e : JSValue) (m : String)
    (hm : getProp options "method" = JSValue.str m)
    (h : validateMethodField options = some e) : isMeshes e = true := by
  unfold validateMethodField at h
  rw [hm] at h
  simp only [] at h
  repeat' split at h
  all_goals first
    | exact Option.noConfusion h
    | (injection h with h; rw [← h]; rfl)

theorem validatePathField_isMeshes (options e : JSValue)
    (h : validatePathField options = some e) : isMeshes e = true := by
  unfold validatePathField at h
  repeat' split at h
  all_goals first
    | exact Option.noConfusion h
    | (injection h with h; rw [← h]; rfl)

theorem validateTimeoutField_isMeshes (options e : JSValue)
    (h : validateTimeoutField options = some e) : isMeshes e = true := by
  unfold validateTimeoutField at h
  simp only [] at h
  repeat' split at h
  all_goals first
    | exact Option.noConfusion h
    | (injection h with h; rw [← h]; rfl)

theorem validateQueryField_isMeshes (options e : JSValue)
    (h : validateQueryField options = some e) : isMeshes e = true := by
  unfold validateQueryField at h
  simp only [] at h
  repeat' split at h
  all_goals first
    | exact Option.noConfusion h
    | (injection h with h; rw [← h]; rfl)

theorem requestValidate_isMeshes (options e : JSValue) (m : String)
    (hm : getProp options "method" = JSValue.str m)
    (h : requestValidate options = some e) : isMeshes e = true := by
  unfold requestValidate at h
  split at h
  · next e1 heq =>
      injection h with h; rw [← h]
      exact validateOptionsShape_isMeshes _ _ heq
  · split at h
    · next e1 heq =>
        injection h with h; rw [← h]
        exact validateMethodField_isMeshes _ _ m hm heq
    · split at h
      · next e1 heq =>
          injection h with h; rw [← h]
          exact validatePathField_isMeshes _ _ heq
      · split at h
        · next e1 heq =>
            injection h with h; rw [← h]
            exact validateTimeoutField_isMeshes _ _ heq
        · exact validateQueryField_isMeshes _ _ h

theorem requestSettle_error_isMeshes (env : JsEnv) (cfg : ClientConfig)
    (options : JSValue) (f : FetchOutcome) (e : JSValue) (m : String)
    (hm : getProp options "method" = JSValue.str m)
    (h : requestSettle env cfg options f = .error e) : isMeshes e = true := by
  unfold requestSettle at h
  split at h
  · next e1 heq =>
      injection h with h; rw [← h]
      exact requestValidate_isMeshes _ _ m hm heq
  · repeat' split at h
    all_goals first
      | exact Except.noConfusion h
      | (injection h with h; rw [← h]; rfl)

end ErrorClassification

section MergeLemmas

theorem getProp_obj (fs : List (String × JSValue)) (k : String) :
    getProp (.obj fs) k = (lookupKV k fs).getD .undefinedV := rfl

theorem getProp_mergeReqOpts_method (c o : JSValue) (p m : String) (b : JSValue) :
    getProp (mergeReqOpts c o p m b) "method" = JSValue.str m := by
  unfold mergeReqOpts getProp
  simp only []
  rw [lookupKV_insertKV, if_neg (by decide), lookupKV_insertKV, if_pos rfl]
  rfl

theorem getProp_mergeReqOpts_path (c o : JSValue) (p m : String) (b : JSValue) :
    getProp (mergeReqOpts c o p m b) "path" = JSValue.str p := by
  unfold mergeReqOpts getProp
  simp only []
  rw [lookupKV_insertKV, if_neg (by decide), lookupKV_insertKV, if_neg (by decide),
    lookupKV_insertKV, if_pos rfl]
  rfl

theorem getProp_mergeReqOpts_other (c o : JSValue) (p m : String) (b : JSValue)
    (k : String) (h1 : ("path" : String) ≠ k) (h2 : ("method" : String) ≠ k)
    (h3 : ("body" : String) ≠ k) :
    getProp (mergeReqOpts c o p m b) k =
      (lookupKV k (insertAll (insertAll [] (spreadFields c)) (spreadFields o))).getD .undefinedV := by
  unfold mergeReqOpts getProp
  simp only []
  rw [lookupKV_insertKV, if_neg h3, lookupKV_insertKV, if_neg h2,
    lookupKV_insertKV, if_neg h1]

end MergeLemmas

theorem deliver_shape (o : Except JSValue JSValue) (cb : Bool) :
    (deliver o cb).retIsUndefined = cb ∧ (deliver o cb).promiseOutcome = o ∧
    (deliver o cb).cbCalls = (if cb then [(deliver o cb).promiseOutcome] else []) := by
  cases o <;> simp [deliver]

section TimeoutLemmas

theorem ctorTimeoutCheck_num (t : ℚ) :
    ctorTimeoutCheck (.num t) =
      if t < 1000 ∨ t > 30000 then some (mkMeshes "Unsupported request timeout" none)
      else none := rfl

theorem mkClient_timeout_case (s : String) (t : ℚ) (hk : keyRegexTest s = true) :
    mkClient (.str s) (.obj [("timeout", .num t)]) =
      match ctorTimeoutCheck (.num t) with
      | some e => .error e
      | none => .ok { publishableKey := s
                      ctorOptions := .obj [("version", .str "v1"), ("timeout", .num t),
                                           ("debug", .bool false)]
                      apiBaseUrl := .str "https://api.meshes.io/api/v1"
                      apiHeaders := apiHeadersOf .undefinedV
                      apiTimeout := .num t
                      debug := false } := by
  unfold mkClient
  simp only []
  rw [hk]
  rfl

theorem requestValidate_post (c o : JSValue) (p : String) (b : JSValue)
    (hp1 : jsTrim p ≠ "") (hp2 : jsTrim p ≠ "/") :
    requestValidate (mergeReqOpts c o p "POST" b) =
      match validateTimeoutField (mergeReqOpts c o p "POST" b) with
      | some e => some e
      | none => validateQueryField (mergeReqOpts c o p "POST" b) := by
  have h1 : validateOptionsShape (mergeReqOpts c o p "POST" b) = none := by
    unfold validateOptionsShape mergeReqOpts
    simp [typeofJS]
  have h2 : validateMethodField (mergeReqOpts c o p "POST" b) = none := by
    unfold validateMethodField
    rw [getProp_mergeReqOpts_method]
    rfl
  have h3 : validatePathField (mergeReqOpts c o p "POST" b) = none := by
    unfold validatePathField
    rw [getProp_mergeReqOpts_path]
    simp only []
    rw [if_neg (not_or.mpr ⟨hp1, hp2⟩)]
  unfold requestValidate
  rw [h1]
  simp only []
  rw [h2]
  simp only []
  rw [h3]

theorem lookup_merge_override (c : JSValue) (k : String) (v : JSValue) :
    lookupKV k (insertAll (insertAll [] (spreadFields c))
      (spreadFields (.obj [(k, v)]))) = some v := by
  show lookupKV k (insertKV (insertAll [] (spreadFields c)) k v) = some v
  rw [lookupKV_insertKV, if_pos rfl]

theorem validateTimeoutField_override (c : JSValue) (p : String) (b : JSValue) (t : ℚ) :
    validateTimeoutField (mergeReqOpts c (.obj [("timeout", .num t)]) p "POST" b) =
      if t < 1000 ∨ t > 30000 then
        some (mkMeshes "Unsupported request timeout"
          (some (mergeReqOpts c (.obj [("timeout", .num t)]) p "POST" b)))
      else none := by
  unfold validateTimeoutField
  rw [getProp_mergeReqOpts_other c _ p "POST" b "timeout" (by decide) (by decide) (by decide),
    lookup_merge_override]
  rfl

theorem effectiveTimeoutOf_override (cfg : ClientConfig) (c : JSValue) (p : String)
    (b : JSValue) (t : ℚ) :
    effectiveTimeoutOf cfg (mergeReqOpts c (.obj [("timeout", .num t)]) p "POST" b)
      = .num t := by
  unfold effectiveTimeoutOf
  rw [getProp_mergeReqOpts_other c _ p "POST" b "timeout" (by decide) (by decide) (by decide),
    lookup_merge_override]
  rfl

end TimeoutLemmas

section HeaderPrecedenceLemmas

theorem lookupKV_some_mem_keys {α : Type} {l : List (String × α)} {k : String} {v : α}
    (h : lookupKV k l = some v) : k ∈ l.map Prod.fst := by
  induction l with
  | nil => exact Option.noConfusion h
  | cons p rest ih =>
      obtain ⟨k1, v1⟩ := p
      unfold lookupKV at h
      by_cases hk : k1 = k
      · simp [hk]
      · rw [if_neg hk] at h
        simp only [List.map_cons, List.mem_cons]
        exact Or.inr (ih h)

theorem mem_keys_insertKV {α : Type} {l : List (String × α)} {k k' : String} {v : α}
    (h : k' ∈ (insertKV l k v).map Prod.fst) : k' ∈ l.map Prod.fst ∨ k' = k := by
  rw [keys_insertKV] at h
  by_cases hin : k ∈ l.map Prod.fst
  · rw [if_pos hin] at h
    exact Or.inl h
  · rw [if_neg hin] at h
    rcases List.mem_append.mp h with h2 | h2
    · exact Or.inl h2
    · right; simpa using h2

theorem cleanHeaders_no_reserved_key (h : JSValue) (k : String)
    (hk : jsLower k ∈ forbiddenHeaders) : k ∉ (cleanHeaders h).map Prod.fst := by
  intro hmem
  obtain ⟨p, hp, hpe⟩ := List.mem_map.mp hmem
  obtain ⟨k0, v0, _, _, _, _, hforb⟩ := cleanHeaders_mem hp
  rw [hpe] at hforb
  exact hforb hk

theorem nodupKeys_apiHeadersOf (h : JSValue) :
    ((apiHeadersOf h).map Prod.fst).Nodup := by
  unfold apiHeadersOf
  exact nodupKeys_insertKV (nodupKeys_insertKV (nodupKeys_insertKV (cleanHeaders_nodupKeys h)))

theorem pkKey_not_in_apiHeadersOf (h : JSValue) :
    "X-Meshes-Publishable-Key" ∉ (apiHeadersOf h).map Prod.fst := by
  unfold apiHeadersOf
  intro hmem
  rcases mem_keys_insertKV hmem with hmem | he
  · rcases mem_keys_insertKV hmem with hmem | he
    · rcases mem_keys_insertKV hmem with hmem | he
      · exact cleanHeaders_no_reserved_key h "X-Meshes-Publishable-Key" (by decide) hmem
      · exact absurd he (by decide)
    · exact absurd he (by decide)
  · exact absurd he (by decide)

theorem lookup_apiHeadersOf_client (h : JSValue) :
    lookupKV "X-Meshes-Client" (apiHeadersOf h) = some "Meshes Events Client v1.0.0" := by
  unfold apiHeadersOf
  rw [lookupKV_insertKV, if_neg (by decide), lookupKV_insertKV, if_neg (by decide),
    lookupKV_insertKV, if_pos rfl]

theorem lookup_apiHeadersOf_contentType (h : JSValue) :
    lookupKV "Content-Type" (apiHeadersOf h) = some "application/json" := by
  unfold apiHeadersOf
  rw [lookupKV_insertKV, if_neg (by decide), lookupKV_insertKV, if_pos rfl]

theorem lookup_apiHeadersOf_accept (h : JSValue) :
    lookupKV "Accept" (apiHeadersOf h) = some "application/json" := by
  unfold apiHeadersOf
  rw [lookupKV_insertKV, if_pos rfl]

theorem outgoing_preserves_api (cfg : ClientConfig) (ctorH opts : JSValue)
    (hapi : cfg.apiHeaders = apiHeadersOf ctorH) :
    ∀ k, k ∈ (apiHeadersOf ctorH).map Prod.fst →
      lookupKV k (outgoingHeaders cfg opts) = lookupKV k (apiHeadersOf ctorH) := by
  intro k hk
  unfold outgoingHeaders buildRequestHeaders
  rw [hapi]
  have hkne : "X-Meshes-Publishable-Key" ≠ k := by
    intro he
    exact pkKey_not_in_apiHeadersOf ctorH (he ▸ hk)
  rw [lookupKV_insertKV, if_neg hkne]
  exact lookupKV_insertAll_mem (nodupKeys_apiHeadersOf ctorH) hk

end HeaderPrecedenceLemmas

section ReservedHeaderLemmas

theorem ctorHeadersCheck_finds (hv : JSValue) :
    ∀ (entries : List (String × JSValue)) (k : String) (v : JSValue),
      (k, v) ∈ entries → jsLower k ∈ forbiddenHeaders →
      ctorHeadersCheck hv entries ≠ none := by
  intro entries
  induction entries with
  | nil => intro k v hmem _ _; simp at hmem
  | cons p rest ih =>
      intro k v hmem hres hnone
      obtain ⟨k1, v1⟩ := p
      unfold ctorHeadersCheck at hnone
      cases v1 <;> (try simp only [] at hnone)
      case str sv =>
        by_cases hf : jsLower k1 ∈ forbiddenHeaders
        · rw [if_pos hf] at hnone
          exact Option.noConfusion hnone
        · rw [if_neg hf] at hnone
          rcases List.mem_cons.mp hmem with he | htail
          · have hk1 : k = k1 := congrArg Prod.fst he
            exact hf (hk1 ▸ hres)
          · exact ih k v htail hres hnone
      all_goals exact Option.noConfusion hnone

theorem ctorHeadersGate_ne_none_of_reserved (hv : JSValue) (k : String) (v : JSValue)
    (hmem : (k, v) ∈ spreadFields hv) (hres : jsLower k ∈ forbiddenHeaders) :
    ctorHeadersGate hv ≠ none := by
  intro hnone
  unfold ctorHeadersGate at hnone
  cases hv with
  | obj fs2 =>
      rw [if_neg (by simp [typeofJS])] at hnone
      rw [if_neg (by simp [truthy, typeofJS, isArrayJS])] at hnone
      exact ctorHeadersCheck_finds _ _ k v hmem hres hnone
  | arr xs =>
      rw [if_neg (by simp [typeofJS])] at hnone
      rw [if_pos (by simp [truthy, typeofJS, isArrayJS])] at hnone
      exact Option.noConfusion hnone
  | str s =>
      rw [if_neg (by simp [typeofJS])] at hnone
      rw [if_pos (by simp [truthy, typeofJS, isArrayJS])] at hnone
      exact Option.noConfusion hnone
  | num q => simp [spreadFields] at hmem
  | bool b => simp [spreadFields] at hmem
  | null => simp [spreadFields] at hmem
  | undefinedV => simp [spreadFields] at hmem
  | fn => simp [spreadFields] at hmem
  | errv n m d => simp [spreadFields] at hmem

theorem getProp_jsMerge_right (a : JSValue) (fs : List (String × JSValue))
    (k : String) (v : JSValue) (hnd : (fs.map Prod.fst).Nodup)
    (h : lookupKV k fs = some v) : getProp (jsMerge a (.obj fs)) k = v := by
  unfold jsMerge getProp
  simp only [spreadFields]
  rw [lookupKV_insertAll_mem hnd (lookupKV_some_mem_keys h), h]
  rfl

theorem mkClient_ok_headersGate (pk opts : JSValue) (cfg : ClientConfig)
    (h : mkClient pk opts = .ok cfg) :
    ctorHeadersGate (getProp (jsMerge defaultOptions opts) "headers") = none := by
  unfold mkClient at h
  simp only [] at h
  repeat' split at h
  all_goals first
    | exact Except.noConfusion h
    | assumption

theorem firstErr_none {o q : Option JSValue} :
    (match o with | some e => some e | none => q) = none ↔ o = none ∧ q = none := by
  cases o <;> simp

theorem validateTimeoutField_none_congr (o o' : JSValue)
    (h : getProp o "timeout" = getProp o' "timeout") :
    (validateTimeoutField o = none ↔ validateTimeoutField o' = none) := by
  unfold validateTimeoutField
  rw [h]
  cases hgp : getProp o' "timeout" <;> simp only [typeofJS] <;> (try simp)

theorem validateQueryField_none_congr (o o' : JSValue)
    (h : getProp o "query" = getProp o' "query") :
    (validateQueryField o = none ↔ validateQueryField o' = none) := by
  unfold validateQueryField
  rw [h]
  cases hgp : getProp o' "query" <;> simp [typeofJS, truthy, isArrayJS]

theorem getProp_merge_headers_only (c hv : JSValue) (p : String) (b : JSValue)
    (k : String) (h1 : ("path" : String) ≠ k) (h2 : ("method" : String) ≠ k)
    (h3 : ("body" : String) ≠ k) (h4 : ("headers" : String) ≠ k) :
    getProp (mergeReqOpts c (.obj [("headers", hv)]) p "POST" b) k
      = getProp (mergeReqOpts c (.obj []) p "POST" b) k := by
  rw [getProp_mergeReqOpts_other _ _ _ _ _ k h1 h2 h3,
    getProp_mergeReqOpts_other _ _ _ _ _ k h1 h2 h3]
  congr 1
  show lookupKV k (insertKV (insertAll [] (spreadFields c)) "headers" hv)
      = lookupKV k (insertAll [] (spreadFields c))
  rw [lookupKV_insertKV, if_neg h4]

theorem validate_none_iff_headers (c hv b : JSValue) :
    (requestValidate (mergeReqOpts c (.obj [("headers", hv)]) "/events" "POST" b) = none)
      ↔ (requestValidate (mergeReqOpts c (.obj []) "/events" "POST" b) = none) := by
  rw [requestValidate_post _ _ _ _ (by decide) (by decide),
    requestValidate_post _ _ _ _ (by decide) (by decide),
    firstErr_none, firstErr_none,
    validateTimeoutField_none_congr _ _
      (getProp_merge_headers_only c hv "/events" b "timeout"
        (by decide) (by decide) (by decide) (by decide)),
    validateQueryField_none_congr _ _
      (getProp_merge_headers_only c hv "/events" b "query"
        (by decide) (by decide) (by decide) (by decide))]

end ReservedHeaderLemmas

/-- C4: a reserved header name supplied in the constructor options is a
hard failure (construction fails with a `MeshesApiError`), while the same
name supplied per call is not an error — the entry is silently dropped
from the cleaned per-call headers and the contract values appear on the
outgoing request. -/
theorem C4_reserved_headers :
    (∀ (pk : JSValue) (fs : List (String × JSValue)) (hv : JSValue) (k : String) (v : JSValue),
      (fs.map Prod.fst).Nodup →
      lookupKV "headers" fs = some hv →
      (k, v) ∈ spreadFields hv →
      jsLower k ∈ forbiddenHeaders →
      ∃ e, mkClient pk (.obj fs) = .error e ∧ isMeshes e = true) ∧
    (∀ (cfg : ClientConfig) (ctorH hv : JSValue) (k : String),
      jsLower k ∈ forbiddenHeaders →
      cfg.apiHeaders = apiHeadersOf ctorH →
      k ∉ (cleanHeaders hv).map Prod.fst ∧
      (∀ b : JSValue,
        (requestValidate (mergeReqOpts cfg.ctorOptions (.obj [("headers", hv)])
            "/events" "POST" b) = none
          ↔ requestValidate (mergeReqOpts cfg.ctorOptions (.obj [])
            "/events" "POST" b) = none)) ∧
      lookupKV "X-Meshes-Client" (outgoingHeaders cfg (.obj [("headers", hv)]))
        = some "Meshes Events Client v1.0.0" ∧
      lookupKV "Content-Type" (outgoingHeaders cfg (.obj [("headers", hv)]))
        = some "application/json" ∧
      lookupKV "Accept" (outgoingHeaders cfg (.obj [("headers", hv)]))
        = some "application/json" ∧
      lookupKV "X-Meshes-Publishable-Key" (outgoingHeaders cfg (.obj [("headers", hv)]))
        = some cfg.publishableKey) := by
  constructor
  · intro pk fs hv k v hnd hlook hmem hres
    cases hok : mkClient pk (.obj fs) with
    | error e => exact ⟨e, rfl, mkClient_error_isMeshes _ _ _ hok⟩
    | ok cfg =>
        exfalso
        have hgate := mkClient_ok_headersGate pk (.obj fs) cfg hok
        rw [getProp_jsMerge_right defaultOptions fs "headers" hv hnd hlook] at hgate
        exact ctorHeadersGate_ne_none_of_reserved hv k v hmem hres hgate
  · intro cfg ctorH hv k hres hapi
    have hmain := outgoing_preserves_api cfg ctorH (.obj [("headers", hv)]) hapi
    refine ⟨cleanHeaders_no_reserved_key hv k hres,
      fun b => validate_none_iff_headers cfg.ctorOptions hv b, ?_, ?_, ?_, ?_⟩
    · rw [hmain "X-Meshes-Client" (lookupKV_some_mem_keys (lookup_apiHeadersOf_client ctorH)),
        lookup_apiHeadersOf_client]
    · rw [hmain "Content-Type" (lookupKV_some_mem_keys (lookup_apiHeadersOf_contentType ctorH)),
        lookup_apiHeadersOf_contentType]
    · rw [hmain "Accept" (lookupKV_some_mem_keys (lookup_apiHeadersOf_accept ctorH)),
        lookup_apiHeadersOf_accept]
    · unfold outgoingHeaders
      rw [lookupKV_insertKV, if_pos rfl]

theorem C4_reserved_headers_witness :
    (∃ e, mkClient (.str "mesh_pub_a_b_c")
        (.obj [("headers", .obj [("Accept", .str "x")])]) = .error e ∧
      isMeshes e = true) ∧
    ("Accept" ∉ (cleanHeaders (.obj [("Accept", .str "x")])).map Prod.fst ∧
      (∀ b : JSValue,
        (requestValidate (mergeReqOpts cfg0.ctorOptions
            (.obj [("headers", .obj [("Accept", .str "x")])]) "/events" "POST" b) = none
          ↔ requestValidate (mergeReqOpts cfg0.ctorOptions (.obj [])
            "/events" "POST" b) = none)) ∧
      lookupKV "X-Meshes-Client" (outgoingHeaders cfg0
          (.obj [("headers", .obj [("Accept", .str "x")])]))
        = some "Meshes Events Client v1.0.0" ∧
      lookupKV "Content-Type" (outgoingHeaders cfg0
          (.obj [("headers", .obj [("Accept", .str "x")])]))
        = some "application/json" ∧
      lookupKV "Accept" (outgoingHeaders cfg0
          (.obj [("headers", .obj [("Accept", .str "x")])]))
        = some "application/json" ∧
      lookupKV "X-Meshes-Publishable-Key" (outgoingHeaders cfg0
          (.obj [("headers", .obj [("Accept", .str "x")])]))
        = some cfg0.publishableKey) :=
  ⟨C4_reserved_headers.1 (.str "mesh_pub_a_b_c") [("headers", .obj [("Accept", .str "x")])]
      (.obj [("Accept", .str "x")]) "Accept" (.str "x")
      (by simp) rfl (List.mem_singleton.mpr rfl) (by decide),
   C4_reserved_headers.2 cfg0 .undefinedV (.obj [("Accept", .str "x")]) "Accept"
      (by decide) rfl⟩

/-- C9: the outgoing headers are the cleaned per-call headers overlaid by
the construction-time layer — on any exact key collision the
construction-time value wins — and the contract headers (client identity,
content type, accept, publishable key) are always present with their
contract values. -/
theorem C9_header_precedence :
    ∀ (ctorH : JSValue) (cfg : ClientConfig) (opts : JSValue),
      cfg.apiHeaders = apiHeadersOf ctorH →
      (∀ k, k ∈ (apiHeadersOf ctorH).map Prod.fst →
        lookupKV k (outgoingHeaders cfg opts) = lookupKV k (apiHeadersOf ctorH)) ∧
      lookupKV "X-Meshes-Client" (outgoingHeaders cfg opts)
        = some "Meshes Events Client v1.0.0" ∧
      lookupKV "Content-Type" (outgoingHeaders cfg opts) = some "application/json" ∧
      lookupKV "Accept" (outgoingHeaders cfg opts) = some "application/json" ∧
      lookupKV "X-Meshes-Publishable-Key" (outgoingHeaders cfg opts)
        = some cfg.publishableKey := by
  intro ctorH cfg opts hapi
  have hmain := outgoing_preserves_api cfg ctorH opts hapi
  refine ⟨hmain, ?_, ?_, ?_, ?_⟩
  · rw [hmain "X-Meshes-Client" (lookupKV_some_mem_keys (lookup_apiHeadersOf_client ctorH)),
      lookup_apiHeadersOf_client]
  · rw [hmain "Content-Type" (lookupKV_some_mem_keys (lookup_apiHeadersOf_contentType ctorH)),
      lookup_apiHeadersOf_contentType]
  · rw [hmain "Accept" (lookupKV_some_mem_keys (lookup_apiHeadersOf_accept ctorH)),
      lookup_apiHeadersOf_accept]
  · unfold outgoingHeaders
    rw [lookupKV_insertKV, if_pos rfl]

theorem C9_header_precedence_witness :
    (∀ k, k ∈ (apiHeadersOf .undefinedV).map Prod.fst →
      lookupKV k (outgoingHeaders cfg0 (.obj [("headers",
        .obj [("Content-Type", .str "text/plain")])]))
        = lookupKV k (apiHeadersOf .undefinedV)) ∧
    lookupKV "X-Meshes-Client" (outgoingHeaders cfg0 (.obj [("headers",
        .obj [("Content-Type", .str "text/plain")])]))
      = some "Meshes Events Client v1.0.0" ∧
    lookupKV "Content-Type" (outgoingHeaders cfg0 (.obj [("headers",
        .obj [("Content-Type", .str "text/plain")])]))
      = some "application/json" ∧
    lookupKV "Accept" (outgoingHeaders cfg0 (.obj [("headers",
        .obj [("Content-Type", .str "text/plain")])]))
      = some "application/json" ∧
    lookupKV "X-Meshes-Publishable-Key" (outgoingHeaders cfg0 (.obj [("headers",
        .obj [("Content-Type", .str "text/plain")])]))
      = some cfg0.publishableKey :=
  C9_header_precedence .undefinedV cfg0
    (.obj [("headers", .obj [("Content-Type", .str "text/plain")])]) rfl

/-- C3: every numeric timeout outside [1000, 30000] is rejected with a
`MeshesApiError` both at construction time and per call, while every value
inside the range is accepted and used verbatim as the stored default /
effective timeout. -/
theorem C3_timeout_bounds :
    (∀ (s : String) (t : ℚ), keyRegexTest s = true → 1000 ≤ t → t ≤ 30000 →
      ∃ cfg, mkClient (.str s) (.obj [("timeout", .num t)]) = .ok cfg ∧
        cfg.apiTimeout = .num t) ∧
    (∀ (s : String) (t : ℚ), keyRegexTest s = true → (t < 1000 ∨ 30000 < t) →
      ∃ e, mkClient (.str s) (.obj [("timeout", .num t)]) = .error e ∧
        isMeshes e = true) ∧
    (∀ (env : JsEnv) (cfg : ClientConfig) (cb : Bool) (f : FetchOutcome) (t : ℚ),
      (t < 1000 ∨ 30000 < t) →
      ∃ d e, emitCall env cfg validEvent0 (.obj [("timeout", .num t)]) cb f
          = CallOutcome.proceeded d ∧
        d.promiseOutcome = .error e ∧ isMeshes e = true) ∧
    (∀ (c : JSValue) (p : String) (b : JSValue) (cfg : ClientConfig) (t : ℚ),
      1000 ≤ t → t ≤ 30000 →
      validateTimeoutField (mergeReqOpts c (.obj [("timeout", .num t)]) p "POST" b) = none ∧
      effectiveTimeoutOf cfg (mergeReqOpts c (.obj [("timeout", .num t)]) p "POST" b)
        = .num t) := by
  refine ⟨?_, ?_, ?_, ?_⟩
  · intro s t hk h1 h2
    rw [mkClient_timeout_case s t hk, ctorTimeoutCheck_num,
      if_neg (by push_neg; exact ⟨h1, h2⟩)]
    exact ⟨_, rfl, rfl⟩
  · intro s t hk hout
    rw [mkClient_timeout_case s t hk, ctorTimeoutCheck_num, if_pos hout]
    exact ⟨mkMeshes "Unsupported request timeout" none, rfl, rfl⟩
  · intro env cfg cb f t hout
    have hval : requestValidate
        (mergeReqOpts cfg.ctorOptions (.obj [("timeout", .num t)]) "/events" "POST" validEvent0)
        = some (mkMeshes "Unsupported request timeout"
            (some (mergeReqOpts cfg.ctorOptions (.obj [("timeout", .num t)])
              "/events" "POST" validEvent0))) := by
      rw [requestValidate_post _ _ _ _ (by decide) (by decide),
        validateTimeoutField_override, if_pos hout]
    have hsettle : requestSettle env cfg
        (mergeReqOpts cfg.ctorOptions (.obj [("timeout", .num t)]) "/events" "POST" validEvent0) f
        = .error (mkMeshes "Unsupported request timeout"
            (some (mergeReqOpts cfg.ctorOptions (.obj [("timeout", .num t)])
              "/events" "POST" validEvent0))) := by
      unfold requestSettle
      rw [hval]
    refine ⟨deliver (.error (mkMeshes "Unsupported request timeout"
        (some (mergeReqOpts cfg.ctorOptions (.obj [("timeout", .num t)])
          "/events" "POST" validEvent0)))) cb,
      mkMeshes "Unsupported request timeout"
        (some (mergeReqOpts cfg.ctorOptions (.obj [("timeout", .num t)])
          "/events" "POST" validEvent0)), ?_, ?_, rfl⟩
    · unfold emitCall
      rw [show validateEvent validEvent0 = none from rfl]
      simp only []
      rw [hsettle]
    · cases cb <;> rfl
  · intro c p b cfg t h1 h2
    constructor
    · rw [validateTimeoutField_override,
        if_neg (by push_neg; exact ⟨h1, h2⟩)]
    · exact effectiveTimeoutOf_override cfg c p b t

theorem C3_timeout_bounds_witness :
    (∃ cfg, mkClient (.str "mesh_pub_a_b_c") (.obj [("timeout", .num 2000)]) = .ok cfg ∧
      cfg.apiTimeout = .num 2000) ∧
    (∃ e, mkClient (.str "mesh_pub_a_b_c") (.obj [("timeout", .num 50)]) = .error e ∧
      isMeshes e = true) ∧
    (∃ d e, emitCall trivEnv cfg0 validEvent0 (.obj [("timeout", .num 50)]) true (.reject .null)
        = CallOutcome.proceeded d ∧
      d.promiseOutcome = .error e ∧ isMeshes e = true) ∧
    (validateTimeoutField (mergeReqOpts (JSValue.obj []) (.obj [("timeout", .num 2000)])
        "/events" "POST" .null) = none ∧
      effectiveTimeoutOf cfg0 (mergeReqOpts (JSValue.obj []) (.obj [("timeout", .num 2000)])
        "/events" "POST" .null) = .num 2000) :=
  ⟨C3_timeout_bounds.1 "mesh_pub_a_b_c" 2000 rfl (by norm_num) (by norm_num),
   C3_timeout_bounds.2.1 "mesh_pub_a_b_c" 50 rfl (Or.inl (by norm_num)),
   C3_timeout_bounds.2.2.1 trivEnv cfg0 true (.reject .null) 50 (Or.inl (by norm_num)),
   C3_timeout_bounds.2.2.2 (JSValue.obj []) "/events" .null cfg0 2000
     (by norm_num) (by norm_num)⟩

section BatchLemmas

theorem keyRegexTest_ne_empty (s : String) (h : keyRegexTest s = true) : s ≠ "" := by
  intro he
  subst he
  exact absurd h (by decide)

theorem mkClient_ok_key (s : String) (o : JSValue) (cfg : ClientConfig)
    (h : mkClient (.str s) o = .ok cfg) : keyRegexTest s = true := by
  cases hk : keyRegexTest s
  · rw [mkClient] at h
    simp only [] at h
    rw [hk] at h
    simp at h
  · rfl

theorem mkClient_default (s : String) (hk : keyRegexTest s = true) :
    mkClient (.str s) (.obj []) =
      .ok { publishableKey := s
            ctorOptions := .obj [("version", .str "v1"), ("timeout", .num 5000),
                                 ("debug", .bool false)]
            apiBaseUrl := .str "https://api.meshes.io/api/v1"
            apiHeaders := apiHeadersOf .undefinedV
            apiTimeout := .num 5000
            debug := false } := by
  unfold mkClient
  simp only []
  rw [hk]
  rfl

theorem validateBatchElems_first :
    ∀ (xs : List JSValue) (i : ℕ) (x e : JSValue), xs.get? i = some x →
      validateEvent x = some e →
      (∀ j y, j < i → xs.get? j = some y → validateEvent y = none) →
      validateBatchElems xs = some e := by
  intro xs
  induction xs with
  | nil => intro i x e h _ _; simp at h
  | cons x0 rest ih =>
      intro i x e hget hval hprev
      cases i with
      | zero =>
          have hx : x0 = x := by
            have : (x0 :: rest).get? 0 = some x0 := rfl
            rw [this] at hget
            injection hget
          unfold validateBatchElems
          rw [show validateEvent x0 = some e from hx ▸ hval]
      | succ i2 =>
          have h0 : validateEvent x0 = none := hprev 0 x0 (Nat.succ_pos i2) rfl
          unfold validateBatchElems
          rw [h0]
          exact ih i2 x e hget hval
            (fun j y hj hy => hprev (j + 1) y (Nat.succ_lt_succ hj) hy)

end BatchLemmas

theorem requestTrace_shape (env : JsEnv) (cfg : ClientConfig) (options : JSValue)
    (hasAC : Bool) :
    requestTrace env cfg options hasAC
        = (if hasAC then [REvent.armTimer] else []) ++ [REvent.validationFailed] ∨
    requestTrace env cfg options hasAC
        = (if hasAC then [REvent.armTimer] else []) ++ [REvent.validated] ∨
    ∃ u, requestTrace env cfg options hasAC
        = (if hasAC then [REvent.armTimer] else []) ++ [REvent.validated, REvent.fetchStart u] := by
  unfold requestTrace
  cases hv : requestValidate options with
  | some e => left; rfl
  | none =>
      by_cases hpk : cfg.publishableKey = ""
      · right; left; rw [if_pos hpk]
      · right; right
        exact ⟨requestUrl env cfg options, by rw [if_neg hpk]⟩

/-- C5 counterexample: on a concrete valid call with the cancellation
primitive available, the deadline timer is armed at trace position 0 and
the transport dispatch happens later (position 2) — the timer is armed
before the transport call is issued, contradicting the claim as stated. -/
theorem C5_timer_order_counterexample :
    (requestTrace trivEnv cfg0
        (mergeReqOpts cfg0.ctorOptions (.obj []) "/events" "POST" validEvent0) true).get? 0
      = some REvent.armTimer ∧
    (requestTrace trivEnv cfg0
        (mergeReqOpts cfg0.ctorOptions (.obj []) "/events" "POST" validEvent0) true).get? 2
      = some (REvent.fetchStart "https://api.meshes.io/api/v1/events") ∧
    ¬ (∀ i j : ℕ,
        (requestTrace trivEnv cfg0
          (mergeReqOpts cfg0.ctorOptions (.obj []) "/events" "POST" validEvent0) true).get? i
          = some REvent.armTimer →
        (requestTrace trivEnv cfg0
          (mergeReqOpts cfg0.ctorOptions (.obj []) "/events" "POST" validEvent0) true).get? j
          = some (REvent.fetchStart "https://api.meshes.io/api/v1/events") →
        j < i) := by
  refine ⟨rfl, rfl, ?_⟩
  intro hcl
  have h2 := hcl 0 2 rfl rfl
  omega

/-- C5 (amended): for every request-pipeline run, validation completes
fully before any transport dispatch (every dispatch event in the step
trace is preceded by the validation-completed event); the deadline timer,
when the cancellation primitive is available, is armed at pipeline entry —
before validation and before dispatch — not after dispatch begins. -/
theorem C5_validation_before_dispatch :
    ∀ (env : JsEnv) (cfg : ClientConfig) (options : JSValue) (hasAC : Bool),
      (∀ u i, (requestTrace env cfg options hasAC).get? i = some (REvent.fetchStart u) →
        ∃ j, j < i ∧ (requestTrace env cfg options hasAC).get? j = some REvent.validated) ∧
      (hasAC = true → (requestTrace env cfg options hasAC).get? 0 = some REvent.armTimer) := by
  intro env cfg options hasAC
  rcases requestTrace_shape env cfg options hasAC with hsh | hsh | ⟨u0, hsh⟩ <;>
    rw [hsh] <;> cases hasAC
  · refine ⟨?_, ?_⟩
    · intro u i h
      rcases i with _ | n <;> simp [List.get?] at h
    · intro hf; simp at hf
  · refine ⟨?_, ?_⟩
    · intro u i h
      rcases i with _ | _ | n <;> simp [List.get?] at h
    · intro _; rfl
  · refine ⟨?_, ?_⟩
    · intro u i h
      rcases i with _ | n <;> simp [List.get?] at h
    · intro hf; simp at hf
  · refine ⟨?_, ?_⟩
    · intro u i h
      rcases i with _ | _ | n <;> simp [List.get?] at h
    · intro _; rfl
  · refine ⟨?_, ?_⟩
    · intro u i h
      rcases i with _ | _ | n
      · simp [List.get?] at h
      · exact ⟨0, by omega, rfl⟩
      · simp [List.get?] at h
    · intro hf; simp at hf
  · refine ⟨?_, ?_⟩
    · intro u i h
      rcases i with _ | _ | _ | n
      · simp [List.get?] at h
      · simp [List.get?] at h
      · exact ⟨1, by omega, rfl⟩
      · simp [List.get?] at h
    · intro _; rfl

theorem C5_validation_before_dispatch_witness :
    (∃ j, j < 2 ∧ (requestTrace trivEnv cfg0
        (mergeReqOpts cfg0.ctorOptions (.obj []) "/events" "POST" validEvent0) true).get? j
        = some REvent.validated) ∧
    (requestTrace trivEnv cfg0
        (mergeReqOpts cfg0.ctorOptions (.obj []) "/events" "POST" validEvent0) true).get? 0
      = some REvent.armTimer :=
  ⟨(C5_validation_before_dispatch trivEnv cfg0
      (mergeReqOpts cfg0.ctorOptions (.obj []) "/events" "POST" validEvent0) true).1
      "https://api.meshes.io/api/v1/events" 2 rfl,
   (C5_validation_before_dispatch trivEnv cfg0
      (mergeReqOpts cfg0.ctorOptions (.obj []) "/events" "POST" validEvent0) true).2 rfl⟩

/-- C6: `emitBatch` throws synchronously with a `MeshesApiError` when the
argument is not an array, is empty, or has more than 100 elements; it
validates the elements in order and throws the first element failure; and
for every array of 1 to 100 valid events on a freshly constructed client
it dispatches exactly one transport request, to the bulk path. -/
theorem C6_emitBatch :
    (∀ (env : JsEnv) (cfg : ClientConfig) (events opts : JSValue) (cb : Bool)
        (f : FetchOutcome), isArrayJS events = false →
      emitBatchCall env cfg events opts cb f
        = CallOutcome.thrown (mkMeshes "Events must be an array" (some events))) ∧
    (∀ (env : JsEnv) (cfg : ClientConfig) (opts : JSValue) (cb : Bool) (f : FetchOutcome),
      emitBatchCall env cfg (.arr []) opts cb f
        = CallOutcome.thrown (mkMeshes "Events array cannot be empty" none)) ∧
    (∀ (env : JsEnv) (cfg : ClientConfig) (xs : List JSValue) (opts : JSValue) (cb : Bool)
        (f : FetchOutcome), xs.length > 100 →
      emitBatchCall env cfg (.arr xs) opts cb f
        = CallOutcome.thrown (mkMeshes "Bulk emit supports up to 100 events per request"
            (some (.obj [("count", .num (xs.length : ℚ))])))) ∧
    (∀ (env : JsEnv) (cfg : ClientConfig) (xs : List JSValue) (opts : JSValue) (cb : Bool)
        (f : FetchOutcome) (i : ℕ) (x e : JSValue),
      xs.length ≤ 100 → xs.get? i = some x → validateEvent x = some e →
      (∀ j y, j < i → xs.get? j = some y → validateEvent y = none) →
      emitBatchCall env cfg (.arr xs) opts cb f = CallOutcome.thrown e) ∧
    (∀ (env : JsEnv) (s : String) (cfg : ClientConfig) (xs : List JSValue) (hasAC : Bool),
      mkClient (.str s) (.obj []) = .ok cfg → xs ≠ [] → xs.length ≤ 100 →
      validateBatchElems xs = none →
      (emitBatchTrace env cfg (.arr xs) (.obj []) hasAC).filter isFetchEvent
        = [REvent.fetchStart "https://api.meshes.io/api/v1/events/bulk"]) := by
  refine ⟨?_, ?_, ?_, ?_, ?_⟩
  · intro env cfg events opts cb f h
    unfold emitBatchCall emitBatchSync
    cases events <;> first | rfl | simp [isArrayJS] at h
  · intro env cfg opts cb f
    rfl
  · intro env cfg xs opts cb f h
    unfold emitBatchCall emitBatchSync
    simp only []
    rw [if_neg (by omega), if_pos h]
  · intro env cfg xs opts cb f i x e hlen hget hval hprev
    have hipos : i < xs.length := List.get?_eq_some.mp hget |>.1
    unfold emitBatchCall emitBatchSync
    simp only []
    rw [if_neg (by omega), if_neg (by omega),
      validateBatchElems_first xs i x e hget hval hprev]
  · intro env s cfg xs hasAC hok hne hlen hvalid
    have hk := mkClient_ok_key s (.obj []) cfg hok
    have hcfg : cfg = { publishableKey := s
                        ctorOptions := .obj [("version", .str "v1"), ("timeout", .num 5000),
                                             ("debug", .bool false)]
                        apiBaseUrl := .str "https://api.meshes.io/api/v1"
                        apiHeaders := apiHeadersOf .undefinedV
                        apiTimeout := .num 5000
                        debug := false } := by
      rw [mkClient_default s hk] at hok
      injection hok with hok
      exact hok.symm
    subst hcfg
    have hsync : emitBatchSync (.arr xs) = none := by
      unfold emitBatchSync
      simp only []
      rw [if_neg (by
          intro h0
          exact hne (List.length_eq_zero.mp h0)),
        if_neg (by omega)]
      exact hvalid
    unfold emitBatchTrace
    rw [hsync]
    unfold requestTrace
    rw [show requestValidate (mergeReqOpts
        (JSValue.obj [("version", .str "v1"), ("timeout", .num 5000), ("debug", .bool false)])
        (.obj []) "/events/bulk" "POST" (.arr xs)) = none from rfl]
    simp only []
    rw [if_neg (keyRegexTest_ne_empty s hk)]
    cases hasAC <;> simp [isFetchEvent] <;> rfl

theorem C6_emitBatch_witness :
    (emitBatchCall trivEnv cfg0 .null (.obj []) true (.reject .null)
      = CallOutcome.thrown (mkMeshes "Events must be an array" (some .null))) ∧
    (emitBatchCall trivEnv cfg0 (.arr []) (.obj []) true (.reject .null)
      = CallOutcome.thrown (mkMeshes "Events array cannot be empty" none)) ∧
    (emitBatchCall trivEnv cfg0 (.arr (List.replicate 101 validEvent0)) (.obj []) true
        (.reject .null)
      = CallOutcome.thrown (mkMeshes "Bulk emit supports up to 100 events per request"
          (some (.obj [("count", .num ((List.replicate 101 validEvent0).length : ℚ))])))) ∧
    (emitBatchCall trivEnv cfg0 (.arr [validEvent0, .num 0]) (.obj []) true (.reject .null)
      = CallOutcome.thrown (mkMeshes "Invalid event: must be an object" (some (.num 0)))) ∧
    ((emitBatchTrace trivEnv cfg0 (.arr [validEvent0]) (.obj []) true).filter isFetchEvent
      = [REvent.fetchStart "https://api.meshes.io/api/v1/events/bulk"]) :=
  ⟨C6_emitBatch.1 trivEnv cfg0 .null (.obj []) true (.reject .null) rfl,
   C6_emitBatch.2.1 trivEnv cfg0 (.obj []) true (.reject .null),
   C6_emitBatch.2.2.1 trivEnv cfg0 (List.replicate 101 validEvent0) (.obj []) true
     (.reject .null) (by simp),
   C6_emitBatch.2.2.2.1 trivEnv cfg0 [validEvent0, .num 0] (.obj []) true (.reject .null)
     1 (.num 0) (mkMeshes "Invalid event: must be an object" (some (.num 0)))
     (by simp) rfl rfl
     (fun j y hj hy => by
       have hj0 : j = 0 := Nat.lt_one_iff.mp hj
       subst hj0
       injection hy with hy
       rw [← hy]
       rfl),
   C6_emitBatch.2.2.2.2 trivEnv "mesh_pub_a_b_c" cfg0 [validEvent0] true rfl
     (by simp) (by simp) rfl⟩

/-- C1: every failure of client construction, `emit` or `emitBatch` —
whether thrown synchronously, rejected through the promise, or passed to
the callback, and for every transport behaviour — is a `MeshesApiError`;
no raw lower-level error reaches the caller. -/
theorem C1_every_failure_is_meshes :
    (∀ (pk opts e : JSValue), mkClient pk opts = .error e → isMeshes e = true) ∧
    (∀ (env : JsEnv) (cfg : ClientConfig) (ev opts : JSValue) (cb : Bool) (f : FetchOutcome),
      (∀ e, emitCall env cfg ev opts cb f = CallOutcome.thrown e → isMeshes e = true) ∧
      (∀ d, emitCall env cfg ev opts cb f = CallOutcome.proceeded d →
        (∀ e, d.promiseOutcome = .error e → isMeshes e = true) ∧
        (∀ e, Except.error e ∈ d.cbCalls → isMeshes e = true))) ∧
    (∀ (env : JsEnv) (cfg : ClientConfig) (events opts : JSValue) (cb : Bool) (f : FetchOutcome),
      (∀ e, emitBatchCall env cfg events opts cb f = CallOutcome.thrown e → isMeshes e = true) ∧
      (∀ d, emitBatchCall env cfg events opts cb f = CallOutcome.proceeded d →
        (∀ e, d.promiseOutcome = .error e → isMeshes e = true) ∧
        (∀ e, Except.error e ∈ d.cbCalls → isMeshes e = true))) := by
  refine ⟨mkClient_error_isMeshes, ?_, ?_⟩
  · intro env cfg ev opts cb f
    constructor
    · intro e h
      unfold emitCall at h
      split at h
      · next e1 heq =>
          injection h with h
          rw [← h]
          exact validateEvent_isMeshes _ _ heq
      · exact CallOutcome.noConfusion h
    · intro d h
      unfold emitCall at h
      split at h
      · exact CallOutcome.noConfusion h
      · injection h with h
        have hm := getProp_mergeReqOpts_method cfg.ctorOptions opts "/events" "POST" ev
        have hshape := deliver_shape
          (requestSettle env cfg (mergeReqOpts cfg.ctorOptions opts "/events" "POST" ev) f) cb
        have hpo : ∀ e, d.promiseOutcome = Except.error e → isMeshes e = true := by
          intro e hpe
          rw [← h, hshape.2.1] at hpe
          exact requestSettle_error_isMeshes env cfg _ f e "POST" hm hpe
        refine ⟨hpo, ?_⟩
        intro e hce
        rw [← h, hshape.2.2] at hce
        by_cases hcb : cb
        · rw [if_pos hcb] at hce
          have h2 := List.mem_singleton.mp hce
          apply hpo
          rw [← h]
          exact h2.symm
        · rw [if_neg hcb] at hce
          simp at hce
  · intro env cfg events opts cb f
    constructor
    · intro e h
      unfold emitBatchCall at h
      split at h
      · next e1 heq =>
          injection h with h
          rw [← h]
          exact emitBatchSync_isMeshes _ _ heq
      · exact CallOutcome.noConfusion h
    · intro d h
      unfold emitBatchCall at h
      split at h
      · exact CallOutcome.noConfusion h
      · injection h with h
        have hm := getProp_mergeReqOpts_method cfg.ctorOptions opts "/events/bulk" "POST" events
        have hshape := deliver_shape
          (requestSettle env cfg
            (mergeReqOpts cfg.ctorOptions opts "/events/bulk" "POST" events) f) cb
        have hpo : ∀ e, d.promiseOutcome = Except.error e → isMeshes e = true := by
          intro e hpe
          rw [← h, hshape.2.1] at hpe
          exact requestSettle_error_isMeshes env cfg _ f e "POST" hm hpe
        refine ⟨hpo, ?_⟩
        intro e hce
        rw [← h, hshape.2.2] at hce
        by_cases hcb : cb
        · rw [if_pos hcb] at hce
          have h2 := List.mem_singleton.mp hce
          apply hpo
          rw [← h]
          exact h2.symm
        · rw [if_neg hcb] at hce
          simp at hce

theorem C1_every_failure_is_meshes_witness :
    isMeshes (mkMeshes "Missing or invalid publishable key" none) = true ∧
    isMeshes (mkMeshes "Invalid event: must be an object" (some (.num 0))) = true ∧
    isMeshes (mkMeshes "Request Failure" (some (.str "boom"))) = true ∧
    isMeshes (mkMeshes "Events must be an array" (some .null)) = true :=
  ⟨C1_every_failure_is_meshes.1 (.num 3) (.obj [])
      (mkMeshes "Missing or invalid publishable key" none) rfl,
   (C1_every_failure_is_meshes.2.1 trivEnv cfg0 (.num 0) (.obj []) true (.reject .null)).1
      (mkMeshes "Invalid event: must be an object" (some (.num 0))) rfl,
   ((C1_every_failure_is_meshes.2.1 trivEnv cfg0 validEvent0 (.obj []) true
      (.reject (.str "boom"))).2
      (deliver (.error (mkMeshes "Request Failure" (some (.str "boom")))) true) rfl).1
      (mkMeshes "Request Failure" (some (.str "boom"))) rfl,
   (C1_every_failure_is_meshes.2.2 trivEnv cfg0 .null (.obj []) true (.reject .null)).1
      (mkMeshes "Events must be an array" (some .null)) rfl⟩

/-- C7: for every emit/emitBatch call that reaches the request pipeline,
supplying a callback makes the call return `undefined` and invokes the
callback exactly once — with `(null, result)` on success or `(error)` on
failure — while omitting the callback returns an awaitable that settles
with the same outcome. -/
theorem C7_delivery_duality :
    ∀ (env : JsEnv) (cfg : ClientConfig) (ev events opts : JSValue) (cb : Bool)
      (f : FetchOutcome),
      (validateEvent ev = none →
        ∃ d, emitCall env cfg ev opts cb f = CallOutcome.proceeded d ∧
          d.retIsUndefined = cb ∧
          d.promiseOutcome =
            requestSettle env cfg (mergeReqOpts cfg.ctorOptions opts "/events" "POST" ev) f ∧
          d.cbCalls = (if cb then [d.promiseOutcome] else [])) ∧
      (emitBatchSync events = none →
        ∃ d, emitBatchCall env cfg events opts cb f = CallOutcome.proceeded d ∧
          d.retIsUndefined = cb ∧
          d.promiseOutcome =
            requestSettle env cfg
              (mergeReqOpts cfg.ctorOptions opts "/events/bulk" "POST" events) f ∧
          d.cbCalls = (if cb then [d.promiseOutcome] else [])) := by
  intro env cfg ev events opts cb f
  constructor
  · intro h
    obtain ⟨h1, h2, h3⟩ := deliver_shape
      (requestSettle env cfg (mergeReqOpts cfg.ctorOptions opts "/events" "POST" ev) f) cb
    exact ⟨_, by simp [emitCall, h], h1, h2, h3⟩
  · intro h
    obtain ⟨h1, h2, h3⟩ := deliver_shape
      (requestSettle env cfg (mergeReqOpts cfg.ctorOptions opts "/events/bulk" "POST" events) f) cb
    exact ⟨_, by simp [emitBatchCall, h], h1, h2, h3⟩

theorem C7_delivery_duality_witness :
    (∃ d, emitCall trivEnv cfg0 validEvent0 (.obj []) true (.reject .null)
        = CallOutcome.proceeded d ∧
      d.retIsUndefined = true ∧
      d.promiseOutcome = requestSettle trivEnv cfg0
        (mergeReqOpts cfg0.ctorOptions (.obj []) "/events" "POST" validEvent0) (.reject .null) ∧
      d.cbCalls = (if true then [d.promiseOutcome] else [])) ∧
    (∃ d, emitBatchCall trivEnv cfg0 (.arr [validEvent0]) (.obj []) false (.reject .null)
        = CallOutcome.proceeded d ∧
      d.retIsUndefined = false ∧
      d.promiseOutcome = requestSettle trivEnv cfg0
        (mergeReqOpts cfg0.ctorOptions (.obj []) "/events/bulk" "POST" (.arr [validEvent0]))
        (.reject .null) ∧
      d.cbCalls = (if false then [d.promiseOutcome] else [])) :=
  ⟨(C7_delivery_duality trivEnv cfg0 validEvent0 (.arr [validEvent0]) (.obj [])
      true (.reject .null)).1 rfl,
   (C7_delivery_duality trivEnv cfg0 validEvent0 (.arr [validEvent0]) (.obj [])
      false (.reject .null)).2 rfl⟩

/-- C10: when a callback is supplied and the pipeline fails, the failure is
delivered on both channels: the callback receives the error first and the
internal promise is still rejected with the same error afterwards, while
the public return value is `undefined`. -/
theorem C10_both_channels_on_failure :
    ∀ (env : JsEnv) (cfg : ClientConfig) (ev events opts : JSValue) (f : FetchOutcome)
      (e : JSValue),
      (validateEvent ev = none →
        requestSettle env cfg (mergeReqOpts cfg.ctorOptions opts "/events" "POST" ev) f
          = .error e →
        ∃ d, emitCall env cfg ev opts true f = CallOutcome.proceeded d ∧
          d.retIsUndefined = true ∧ d.cbCalls = [.error e] ∧
          d.promiseOutcome = .error e ∧
          d.order = [DEvent.callbackInvoked, DEvent.promiseRejected]) ∧
      (emitBatchSync events = none →
        requestSettle env cfg (mergeReqOpts cfg.ctorOptions opts "/events/bulk" "POST" events) f
          = .error e →
        ∃ d, emitBatchCall env cfg events opts true f = CallOutcome.proceeded d ∧
          d.retIsUndefined = true ∧ d.cbCalls = [.error e] ∧
          d.promiseOutcome = .error e ∧
          d.order = [DEvent.callbackInvoked, DEvent.promiseRejected]) := by
  intro env cfg ev events opts f e
  constructor
  · intro h1 h2
    refine ⟨deliver (.error e) true, ?_, ?_, ?_, ?_, ?_⟩
    · simp [emitCall, h1, h2]
    · simp [deliver]
    · simp [deliver]
    · simp [deliver]
    · simp [deliver]
  · intro h1 h2
    refine ⟨deliver (.error e) true, ?_, ?_, ?_, ?_, ?_⟩
    · simp [emitBatchCall, h1, h2]
    · simp [deliver]
    · simp [deliver]
    · simp [deliver]
    · simp [deliver]

theorem C10_both_channels_on_failure_witness :
    (∃ d, emitCall trivEnv cfg0 validEvent0 (.obj []) true (.reject .null)
        = CallOutcome.proceeded d ∧
      d.retIsUndefined = true ∧
      d.cbCalls = [.error (mkMeshes "Request Failure" (some .null))] ∧
      d.promiseOutcome = .error (mkMeshes "Request Failure" (some .null)) ∧
      d.order = [DEvent.callbackInvoked, DEvent.promiseRejected]) ∧
    (∃ d, emitBatchCall trivEnv cfg0 (.arr [validEvent0]) (.obj []) true (.reject .null)
        = CallOutcome.proceeded d ∧
      d.retIsUndefined = true ∧
      d.cbCalls = [.error (mkMeshes "Request Failure" (some .null))] ∧
      d.promiseOutcome = .error (mkMeshes "Request Failure" (some .null)) ∧
      d.order = [DEvent.callbackInvoked, DEvent.promiseRejected]) :=
  ⟨(C10_both_channels_on_failure trivEnv cfg0 validEvent0 (.arr [validEvent0]) (.obj [])
      (.reject .null) (mkMeshes "Request Failure" (some .null))).1 rfl rfl,
   (C10_both_channels_on_failure trivEnv cfg0 validEvent0 (.arr [validEvent0]) (.obj [])
      (.reject .null) (mkMeshes "Request Failure" (some .null))).2 rfl rfl⟩

/-- C8: header cleaning is idempotent — cleaning its own output yields the
same mapping — and every surviving entry is a trimmed key/value pair of a
string-valued input entry that is non-empty after trimming and whose
lower-cased key is not reserved. -/
theorem C8_cleanHeaders_idempotent :
    ∀ h : JSValue,
      cleanHeaders (toHeaderObj (cleanHeaders h)) = cleanHeaders h ∧
      ∀ p ∈ cleanHeaders h, ∃ k0 v0, (k0, JSValue.str v0) ∈ spreadFields h ∧
        p = (jsTrim k0, jsTrim v0) ∧ p.1 ≠ "" ∧ p.2 ≠ "" ∧
        jsLower p.1 ∉ forbiddenHeaders :=
  fun h => ⟨cleanHeaders_idem h, fun _ hp => cleanHeaders_mem hp⟩

theorem C8_cleanHeaders_idempotent_witness :
    (cleanHeaders (toHeaderObj (cleanHeaders (.obj [("  X-Custom ", .str " v ")])))
      = cleanHeaders (.obj [("  X-Custom ", .str " v ")])) ∧
    (∃ k0 v0,
      (k0, JSValue.str v0) ∈ spreadFields (.obj [("  X-Custom ", .str " v ")]) ∧
      (("X-Custom", "v") : String × String) = (jsTrim k0, jsTrim v0) ∧
      ("X-Custom" : String) ≠ "" ∧ ("v" : String) ≠ "" ∧
      jsLower "X-Custom" ∉ forbiddenHeaders) := by
  have hmem : (("X-Custom", "v") : String × String)
      ∈ cleanHeaders (.obj [("  X-Custom ", .str " v ")]) := by
    have he : cleanHeaders (.obj [("  X-Custom ", .str " v ")]) = [("X-Custom", "v")] := rfl
    rw [he]
    exact List.mem_singleton.mpr rfl
  exact ⟨(C8_cleanHeaders_idempotent (.obj [("  X-Custom ", .str " v ")])).1,
    (C8_cleanHeaders_idempotent (.obj [("  X-Custom ", .str " v ")])).2 _ hmem⟩

/-- C2: construction fails with a `MeshesApiError` whenever the publishable
key is not a string or does not match the structural pattern (literal
prefix, three non-empty segments over the stated character classes), and
every string matching the pattern is accepted. -/
theorem C2_key_validation :
    (∀ (pk options : JSValue),
      ¬ (∃ s, pk = JSValue.str s ∧ keyPatternSpec s) →
      ∃ m d, mkClient pk options = .error (JSValue.errv "MeshesApiError" m d)) ∧
    (∀ s : String, keyPatternSpec s →
      ∃ cfg, mkClient (.str s) (.obj []) = .ok cfg) := by
  constructor
  · intro pk options h
    match pk with
    | .str s =>
        have hks : keyRegexTest s = false := by
          cases hk : keyRegexTest s
          · rfl
          · exact absurd ⟨s, rfl, (keyRegexTest_iff s).mp hk⟩ h
        refine ⟨"Missing or invalid publishable key", none, ?_⟩
        unfold mkClient
        simp only []
        rw [hks]
        rfl
    | .num q => exact ⟨"Missing or invalid publishable key", none, rfl⟩
    | .bool b => exact ⟨"Missing or invalid publishable key", none, rfl⟩
    | .null => exact ⟨"Missing or invalid publishable key", none, rfl⟩
    | .undefinedV => exact ⟨"Missing or invalid publishable key", none, rfl⟩
    | .obj fs => exact ⟨"Missing or invalid publishable key", none, rfl⟩
    | .arr xs => exact ⟨"Missing or invalid publishable key", none, rfl⟩
    | .fn => exact ⟨"Missing or invalid publishable key", none, rfl⟩
    | .errv n m d => exact ⟨"Missing or invalid publishable key", none, rfl⟩
  · intro s hs
    have hk : keyRegexTest s = true := (keyRegexTest_iff s).mpr hs
    exact ⟨_, by unfold mkClient; simp only []; rw [hk]; rfl⟩

theorem C2_key_validation_witness :
    (∃ m d, mkClient (.num 3) (.obj []) = .error (JSValue.errv "MeshesApiError" m d)) ∧
    (∃ cfg, mkClient (.str "mesh_pub_a_b_c") (.obj []) = .ok cfg) :=
  ⟨C2_key_validation.1 (.num 3) (.obj [])
      (fun hex => by obtain ⟨s, h, _⟩ := hex; exact JSValue.noConfusion h),
   C2_key_validation.2 "mesh_pub_a_b_c" ((keyRegexTest_iff _).mp rfl)⟩

end Meshes
